import Mathlib

/-!
Verification of the user-profile persistence and context-injection subsystem
of the inclusive-travel-agent repository.

The Python sources embedded here are
`inclusive_travel_agent/services/user_profile_service.py` (the
`UserProfileService` class), `travel_concierge/services/context_service.py`
(the `ContextService` class), and the pydantic data model
`travel_concierge/models/user_profile.py`.

Modelling conventions:
  - `datetime` timestamps are logical `Nat` clock values supplied by the
    caller (the service reads `datetime.utcnow()` once per call site);
  - Python dicts used as keyed stores (the in-memory store, the Firestore
    collection) are insertion-ordered association lists `List (String × _)`,
    which matches Python dict / Firestore document-id semantics for the
    operations the code performs;
  - Firestore calls can raise; each call site takes an explicit `Bool`
    oracle saying whether that particular backend call raises.  The
    service-level operations return `Except String _`, mirroring the
    try/except structure of the Python code: a `.error` result models an
    exception escaping to the caller;
  - Python truthiness of strings/lists (`bool(x)`) is emptiness testing;
    pydantic sub-model instances are always truthy, so `if request.x:` on
    an `Optional` sub-model is an `Option.isSome` test.
-/

namespace InclusiveTravel

/-- `TravelStyle(str, Enum)` from `travel_concierge/models/user_profile.py`. -/
inductive TravelStyle where
  | cultural | adventure | relaxation | business | family | solo | accessible
  deriving DecidableEq, Repr

/-- The `.value` string of each `TravelStyle` member. -/
def TravelStyle.value : TravelStyle → String
  | .cultural => "cultural"
  | .adventure => "adventure"
  | .relaxation => "relaxation"
  | .business => "business"
  | .family => "family"
  | .solo => "solo"
  | .accessible => "accessible"

/-- `BudgetRange(str, Enum)`. -/
inductive BudgetRange where
  | budget | midRange | luxury | flexible
  deriving DecidableEq, Repr

/-- The `.value` string of each `BudgetRange` member. -/
def BudgetRange.value : BudgetRange → String
  | .budget => "budget"
  | .midRange => "mid-range"
  | .luxury => "luxury"
  | .flexible => "flexible"

/-- `CommunicationStyle(str, Enum)`. -/
inductive CommunicationStyle where
  | brief | detailed | conversational | professional
  deriving DecidableEq, Repr

/-- The `.value` string of each `CommunicationStyle` member. -/
def CommunicationStyle.value : CommunicationStyle → String
  | .brief => "brief"
  | .detailed => "detailed"
  | .conversational => "conversational"
  | .professional => "professional"

/-- `RiskTolerance(str, Enum)`. -/
inductive RiskTolerance where
  | low | medium | high
  deriving DecidableEq, Repr

/-- The `.value` string of each `RiskTolerance` member. -/
def RiskTolerance.value : RiskTolerance → String
  | .low => "low"
  | .medium => "medium"
  | .high => "high"

/-- `BasicInfo` pydantic model.  `age` is Python `Optional[int]`. -/
structure BasicInfo where
  name : String
  email : String
  age : Option Int := none
  nationality : String
  home_location : String
  phone : Option String := none
  emergency_contact : Option (List (String × String)) := none
  deriving DecidableEq, Repr

/-- `TravelInterests` pydantic model, with its field defaults. -/
structure TravelInterests where
  preferred_destinations : List String := []
  travel_style : List TravelStyle := []
  budget_range : BudgetRange := .midRange
  group_size_preference : String := "flexible"
  accommodation_preferences : List String := []
  activity_interests : List String := []
  transportation_preferences : List String := []
  deriving DecidableEq, Repr

/-- `AccessibilityProfile` pydantic model, with its field defaults. -/
structure AccessibilityProfile where
  mobility_needs : List String := []
  sensory_needs : List String := []
  cognitive_needs : List String := []
  assistance_preferences : List (String × String) := []
  mobility_aids : List String := []
  medical_conditions : List String := []
  dietary_restrictions : List String := []
  medication_requirements : List String := []
  accessibility_priorities : List String := []
  barrier_concerns : List String := []
  service_animal : Option (List (String × String)) := none
  communication_needs : List String := []
  deriving DecidableEq, Repr

/-- `UserPreferences` pydantic model, with its field defaults. -/
structure UserPreferences where
  communication_style : CommunicationStyle := .detailed
  risk_tolerance : RiskTolerance := .medium
  planning_horizon : String := "1_month"
  notification_preferences : List (String × Bool) := []
  privacy_settings : List (String × Bool) := []
  language_preferences : List String := []
  currency_preference : String := "USD"
  timezone : String := "UTC"
  deriving DecidableEq, Repr

/-- `UserProfile` pydantic model (the persisted entity). -/
structure UserProfile where
  user_id : String
  basic_info : BasicInfo
  travel_interests : TravelInterests
  accessibility_profile : AccessibilityProfile
  preferences : UserPreferences
  created_at : Nat
  updated_at : Nat
  last_active : Option Nat := none
  profile_complete : Bool := false
  onboarding_completed : Bool := false
  travel_history : List String := []
  learned_preferences : List (String × String) := []
  deriving DecidableEq, Repr

/-- `CreateUserProfileRequest` pydantic model. -/
structure CreateUserProfileRequest where
  basic_info : BasicInfo
  travel_interests : Option TravelInterests := none
  accessibility_profile : Option AccessibilityProfile := none
  preferences : Option UserPreferences := none
  deriving DecidableEq, Repr

/-- `UpdateUserProfileRequest` pydantic model (all fields optional). -/
structure UpdateUserProfileRequest where
  basic_info : Option BasicInfo := none
  travel_interests : Option TravelInterests := none
  accessibility_profile : Option AccessibilityProfile := none
  preferences : Option UserPreferences := none
  deriving DecidableEq, Repr

/-- `UserProfileSummary` pydantic model (listing projection). -/
structure UserProfileSummary where
  user_id : String
  name : String
  email : String
  created_at : Nat
  last_active : Option Nat
  profile_complete : Bool
  accessibility_needs_count : Nat
  travel_interests_count : Nat
  deriving DecidableEq, Repr

/-- Python truthiness of a string: `bool(s)` is false exactly for `""`. -/
def strTruthy (s : String) : Bool := s ≠ ""

/-- Python truthiness of a list: `bool(l)` is false exactly for `[]`. -/
def listTruthy {α : Type} (l : List α) : Bool := !l.isEmpty

/-- `UserProfileService._is_profile_complete` (checks a create request). -/
def isProfileComplete (request : CreateUserProfileRequest) : Bool :=
  let basic_complete :=
    strTruthy request.basic_info.name &&
    strTruthy request.basic_info.email &&
    strTruthy request.basic_info.nationality &&
    strTruthy request.basic_info.home_location
  let interests_complete :=
    match request.travel_interests with
    | none => false
    | some ti =>
      listTruthy ti.preferred_destinations ||
      listTruthy ti.travel_style ||
      listTruthy ti.activity_interests
  let accessibility_complete :=
    match request.accessibility_profile with
    | none => false
    | some ap =>
      listTruthy ap.mobility_needs ||
      listTruthy ap.sensory_needs ||
      listTruthy ap.assistance_preferences
  basic_complete && (interests_complete || accessibility_complete)

/-- `UserProfileService._is_profile_complete_from_profile`. -/
def isProfileCompleteFromProfile (profile : UserProfile) : Bool :=
  let basic_complete :=
    strTruthy profile.basic_info.name &&
    strTruthy profile.basic_info.email &&
    strTruthy profile.basic_info.nationality &&
    strTruthy profile.basic_info.home_location
  let interests_complete :=
    listTruthy profile.travel_interests.preferred_destinations ||
    listTruthy profile.travel_interests.travel_style ||
    listTruthy profile.travel_interests.activity_interests
  let accessibility_complete :=
    listTruthy profile.accessibility_profile.mobility_needs ||
    listTruthy profile.accessibility_profile.sensory_needs ||
    listTruthy profile.accessibility_profile.assistance_preferences
  basic_complete && (interests_complete || accessibility_complete)

/-- `UserProfileService._create_profile_summary`.  The two counts are the
lengths of the concatenated need / interest lists, as written in the code. -/
def createProfileSummary (profile : UserProfile) : UserProfileSummary :=
  { user_id := profile.user_id
    name := profile.basic_info.name
    email := profile.basic_info.email
    created_at := profile.created_at
    last_active := profile.last_active
    profile_complete := profile.profile_complete
    accessibility_needs_count :=
      (profile.accessibility_profile.mobility_needs ++
       profile.accessibility_profile.sensory_needs ++
       profile.accessibility_profile.cognitive_needs).length
    travel_interests_count :=
      (profile.travel_interests.preferred_destinations ++
       profile.travel_interests.activity_interests ++
       profile.travel_interests.accommodation_preferences).length }

/-! ### Keyed stores

Python dicts keyed by `user_id` (the in-memory store) and the Firestore
collection are modelled as insertion-ordered association lists. -/

/-- First binding for `k`, mirroring Python `d.get(k)` / Firestore doc read. -/
def lookupKey {α : Type} : List (String × α) → String → Option α
  | [], _ => none
  | kv :: rest, k => if kv.1 = k then some kv.2 else lookupKey rest k

/-- Python `d[k] = v` / Firestore `doc_ref.set(v)`: replace in place when the
key is present, append otherwise. -/
def setKey {α : Type} : List (String × α) → String → α → List (String × α)
  | [], k, v => [(k, v)]
  | kv :: rest, k, v =>
    if kv.1 = k then (k, v) :: rest else kv :: setKey rest k v

/-- In-place mutation of the value stored under `k` (Python
`d[k].update(...)` / Firestore `doc_ref.update(...)` merge). -/
def updateValueAt {α : Type} (m : List (String × α)) (k : String) (f : α → α) :
    List (String × α) :=
  m.map fun kv => if kv.1 = k then (kv.1, f kv.2) else kv

/-- Python `del d[k]` / Firestore `doc_ref.delete()`. -/
def eraseKey {α : Type} (m : List (String × α)) (k : String) :
    List (String × α) :=
  m.filter fun kv => kv.1 ≠ k

/-! ### Partial update payloads

`update_data` in `update_user_profile` / `update_last_active` is a Python
dict holding only the keys the call wants to merge into the stored record. -/

/-- The possible keys of an `update_data` dict, each optional. -/
structure UpdateData where
  basic_info : Option BasicInfo := none
  travel_interests : Option TravelInterests := none
  accessibility_profile : Option AccessibilityProfile := none
  preferences : Option UserPreferences := none
  updated_at : Option Nat := none
  profile_complete : Option Bool := none
  last_active : Option Nat := none
  deriving DecidableEq, Repr

/-- Merging an `update_data` dict into a stored profile record
(`dict.update` on the stored mapping): keys present in the payload replace
the stored values, all other fields are untouched. -/
def applyUpdateData (p : UserProfile) (u : UpdateData) : UserProfile :=
  { p with
    basic_info := u.basic_info.getD p.basic_info
    travel_interests := u.travel_interests.getD p.travel_interests
    accessibility_profile := u.accessibility_profile.getD p.accessibility_profile
    preferences := u.preferences.getD p.preferences
    updated_at := u.updated_at.getD p.updated_at
    profile_complete := u.profile_complete.getD p.profile_complete
    last_active :=
      match u.last_active with
      | some t => some t
      | none => p.last_active }

/-- The `update_data` dict built by `update_user_profile`: the sub-objects
present in the request, always `updated_at`, and — when any of the three
completeness-relevant sub-objects is part of the update — a recomputed
`profile_complete` obtained from the merged temporary profile. -/
def buildUpdateData (existing : UserProfile) (request : UpdateUserProfileRequest)
    (now : Nat) : UpdateData :=
  let u : UpdateData :=
    { basic_info := request.basic_info
      travel_interests := request.travel_interests
      accessibility_profile := request.accessibility_profile
      preferences := request.preferences
      updated_at := some now }
  if request.basic_info.isSome || request.travel_interests.isSome ||
      request.accessibility_profile.isSome then
    let temp_profile := applyUpdateData existing u
    { u with profile_complete := some (isProfileCompleteFromProfile temp_profile) }
  else u

/-! ### Service state and the Firestore backend

`ServiceState` is the mutable state of the `UserProfileService` singleton:
the `self.db` client handle (`none` once the service has fallen back to
memory), the external Firestore collection contents, and the in-memory
store.  Each Firestore call site takes a `Bool` oracle: `true` means that
call raises. -/

/-- Mutable state of `UserProfileService` plus the external collection. -/
structure ServiceState where
  /-- Whether `self.db` is a live client (`self.db is not None`). -/
  db : Bool
  /-- Contents of the external Firestore `user_profiles` collection. -/
  fs : List (String × UserProfile)
  /-- `self._memory_store`. -/
  mem : List (String × UserProfile)
  deriving DecidableEq, Repr

/-- `UserProfileService._use_memory_store` (`self.db is None`). -/
def useMemoryStore (s : ServiceState) : Bool := !s.db

/-- Firestore `doc_ref.set(data)`: raises iff the oracle says so. -/
def firestoreSet (fs : List (String × UserProfile)) (uid : String)
    (p : UserProfile) (fails : Bool) :
    Except String (List (String × UserProfile)) :=
  if fails then .error "firestore error" else .ok (setKey fs uid p)

/-- Firestore `doc_ref.get()`: raises iff the oracle says so; otherwise
reports the document (or its absence). -/
def firestoreGet (fs : List (String × UserProfile)) (uid : String)
    (fails : Bool) : Except String (Option UserProfile) :=
  if fails then .error "firestore error" else .ok (lookupKey fs uid)

/-- Firestore `doc_ref.update(update_data)`: raises on oracle failure and
also (NotFound) when the document does not exist; otherwise merges the
payload into the stored document. -/
def firestoreUpdate (fs : List (String × UserProfile)) (uid : String)
    (u : UpdateData) (fails : Bool) :
    Except String (List (String × UserProfile)) :=
  if fails then .error "firestore error"
  else if (lookupKey fs uid).isSome then
    .ok (updateValueAt fs uid fun q => applyUpdateData q u)
  else .error "NotFound"

/-- Firestore `doc_ref.delete()`: raises iff the oracle says so. -/
def firestoreDelete (fs : List (String × UserProfile)) (uid : String)
    (fails : Bool) : Except String (List (String × UserProfile)) :=
  if fails then .error "firestore error" else .ok (eraseKey fs uid)

/-! ### Service operations

Each operation mirrors the try/except structure of the Python method: the
`body` is the code inside the outer `try`, and the final `match` is the
outer `except` handler.  `uid` stands for the freshly generated
`uuid.uuid4()` in `create`, and `now` for `datetime.utcnow()`. -/

/-- The `UserProfile` record built by `create_user_profile` from a request:
missing optional sub-objects are filled with pydantic defaults. -/
def profileFromRequest (uid : String) (now : Nat)
    (request : CreateUserProfileRequest) : UserProfile :=
  { user_id := uid
    basic_info := request.basic_info
    travel_interests := request.travel_interests.getD {}
    accessibility_profile := request.accessibility_profile.getD {}
    preferences := request.preferences.getD {}
    created_at := now
    updated_at := now
    profile_complete := isProfileComplete request
    onboarding_completed := false }

/-- `UserProfileService.create_user_profile`.  The inner try/except around
the Firestore write clears `self.db` and falls back to the memory store on
a backend failure; the outer handler would re-raise a `ValueError`. -/
def createUserProfile (s : ServiceState) (uid : String) (now : Nat)
    (request : CreateUserProfileRequest) (setFails : Bool) :
    Except String (UserProfile × ServiceState) :=
  let body : Except String (UserProfile × ServiceState) :=
    let profile := profileFromRequest uid now request
    if useMemoryStore s then
      .ok (profile, { s with mem := setKey s.mem uid profile })
    else
      match firestoreSet s.fs uid profile setFails with
      | .ok fs2 => .ok (profile, { s with fs := fs2 })
      | .error _ =>
        .ok (profile, { s with db := false, mem := setKey s.mem uid profile })
  match body with
  | .ok v => .ok v
  | .error e => .error ("Failed to create user profile: " ++ e)

/-- `UserProfileService.get_user_profile`: never mutates state; the outer
handler turns any backend exception into `None`. -/
def getUserProfile (s : ServiceState) (uid : String) (getFails : Bool) :
    Except String (Option UserProfile) :=
  let body : Except String (Option UserProfile) :=
    if useMemoryStore s then .ok (lookupKey s.mem uid)
    else firestoreGet s.fs uid getFails
  match body with
  | .ok v => .ok v
  | .error _ => .ok none

/-- `UserProfileService.update_user_profile`.  Reads the existing profile,
builds the partial `update_data`, merges it into the store, and returns the
merged record; the outer handler turns any backend exception into `None`. -/
def updateUserProfile (s : ServiceState) (uid : String) (now : Nat)
    (request : UpdateUserProfileRequest)
    (getFails updFails getFails2 : Bool) :
    Except String (Option UserProfile × ServiceState) :=
  let body : Except String (Option UserProfile × ServiceState) :=
    match getUserProfile s uid getFails with
    | .error e => .error e
    | .ok none => .ok (none, s)
    | .ok (some existing_profile) =>
      let u := buildUpdateData existing_profile request now
      if useMemoryStore s then
        if (lookupKey s.mem uid).isSome then
          let mem2 := updateValueAt s.mem uid fun q => applyUpdateData q u
          .ok (lookupKey mem2 uid, { s with mem := mem2 })
        else
          .ok (none, s)
      else
        match firestoreUpdate s.fs uid u updFails with
        | .error e => .error e
        | .ok fs2 =>
          let s2 := { s with fs := fs2 }
          match getUserProfile s2 uid getFails2 with
          | .error e => .error e
          | .ok res => .ok (res, s2)
  match body with
  | .ok v => .ok v
  | .error _ => .ok (none, s)

/-- `UserProfileService.delete_user_profile`: existence check then delete;
the outer handler turns any backend exception into `False`. -/
def deleteUserProfile (s : ServiceState) (uid : String)
    (getFails delFails : Bool) : Except String (Bool × ServiceState) :=
  let body : Except String (Bool × ServiceState) :=
    if useMemoryStore s then
      if (lookupKey s.mem uid).isSome then
        .ok (true, { s with mem := eraseKey s.mem uid })
      else .ok (false, s)
    else
      match firestoreGet s.fs uid getFails with
      | .error e => .error e
      | .ok none => .ok (false, s)
      | .ok (some _) =>
        match firestoreDelete s.fs uid delFails with
        | .error e => .error e
        | .ok fs2 => .ok (true, { s with fs := fs2 })
  match body with
  | .ok v => .ok v
  | .error _ => .ok (false, s)

/-- Firestore `order_by("created_at")` on a document list: ascending stable
insertion sort by `created_at`. -/
def orderByCreatedAt : List UserProfile → List UserProfile
  | [] => []
  | p :: rest => insertByCreatedAt p (orderByCreatedAt rest)
where
  /-- Stable insertion into an ascending list. -/
  insertByCreatedAt (p : UserProfile) : List UserProfile → List UserProfile
    | [] => [p]
    | q :: rest =>
      if p.created_at ≤ q.created_at then p :: q :: rest
      else q :: insertByCreatedAt p rest

/-- `UserProfileService.list_user_profiles`: page window over the memory
store values (Python slice) or over the `created_at`-ordered backend query;
the outer handler turns any backend exception into an empty list. -/
def listUserProfiles (s : ServiceState) (limit offset : Nat)
    (listFails : Bool) : Except String (List UserProfileSummary) :=
  let body : Except String (List UserProfileSummary) :=
    if useMemoryStore s then
      let all_profiles := s.mem.map (·.2)
      let paginated_profiles := (all_profiles.drop offset).take limit
      .ok (paginated_profiles.map createProfileSummary)
    else
      if listFails then .error "firestore error"
      else
        let docs := ((orderByCreatedAt (s.fs.map (·.2))).drop offset).take limit
        .ok (docs.map createProfileSummary)
  match body with
  | .ok v => .ok v
  | .error _ => .ok []

/-- `UserProfileService.update_last_active`: merges `{"last_active": now}`
into the stored record; the outer handler turns any backend exception
(including NotFound for a missing document) into `False`. -/
def updateLastActive (s : ServiceState) (uid : String) (now : Nat)
    (updFails : Bool) : Except String (Bool × ServiceState) :=
  let body : Except String (Bool × ServiceState) :=
    if useMemoryStore s then
      if (lookupKey s.mem uid).isSome then
        .ok (true, { s with
          mem := updateValueAt s.mem uid fun q => { q with last_active := some now } })
      else .ok (false, s)
    else
      match firestoreUpdate s.fs uid { last_active := some now } updFails with
      | .error e => .error e
      | .ok fs2 => .ok (true, { s with fs := fs2 })
  match body with
  | .ok v => .ok v
  | .error _ => .ok (false, s)

/-! ### Context service

Embedding of `travel_concierge/services/context_service.py`.  A session's
mutable `state` dict is modelled by the keys the context service reads and
writes; Python f-strings become explicit concatenations. -/

/-- A single-quote character, used by Python string interpolation of dicts. -/
def sq : String := String.singleton (Char.ofNat 39)

/-- Python `str()` of a `Dict[str, str]` (single-quoted keys and values). -/
def pyDictRepr (l : List (String × String)) : String :=
  "\x7b" ++
    String.intercalate ", "
      (l.map fun kv => sq ++ kv.1 ++ sq ++ ": " ++ sq ++ kv.2 ++ sq) ++
  "\x7d"

/-- Python `', '.join(l) if l else d`. -/
def joinOr (l : List String) (d : String) : String :=
  if l.isEmpty then d else String.intercalate ", " l

/-- Rendering of `{user_info.age or 'adult'}`: `None` and `0` are falsy. -/
def ageText (age : Option Int) : String :=
  match age with
  | some a => if a = 0 then "adult" else toString a
  | none => "adult"

/-- `ContextService._create_accessibility_summary`. -/
structure AccessibilitySummary where
  has_mobility_needs : Bool
  has_sensory_needs : Bool
  has_cognitive_needs : Bool
  mobility_needs : List String
  sensory_needs : List String
  cognitive_needs : List String
  assistance_preferences : List (String × String)
  mobility_aids : List String
  accessibility_priorities : List String
  barrier_concerns : List String
  dietary_restrictions : List String
  service_animal : Option (List (String × String))
  communication_needs : List String
  deriving DecidableEq, Repr

/-- `ContextService._create_travel_preferences_summary`. -/
structure TravelPreferencesSummary where
  preferred_destinations : List String
  travel_styles : List TravelStyle
  budget_range : BudgetRange
  group_size_preference : String
  accommodation_preferences : List String
  activity_interests : List String
  transportation_preferences : List String
  deriving DecidableEq, Repr

/-- The `user_info` block of the personalized context. -/
structure UserInfoBlock where
  name : String
  age : Option Int
  nationality : String
  home_location : String
  deriving DecidableEq, Repr

/-- The `personalized_context` dict written into session state. -/
structure PersonalizedContext where
  user_info : UserInfoBlock
  accessibility_summary : AccessibilitySummary
  travel_preferences : TravelPreferencesSummary
  communication_style : CommunicationStyle
  personalized_instructions : List (String × String)
  deriving DecidableEq, Repr

/-- `ContextService._create_accessibility_summary` as a function. -/
def createAccessibilitySummary (profile : UserProfile) : AccessibilitySummary :=
  let accessibility := profile.accessibility_profile
  { has_mobility_needs := listTruthy accessibility.mobility_needs
    has_sensory_needs := listTruthy accessibility.sensory_needs
    has_cognitive_needs := listTruthy accessibility.cognitive_needs
    mobility_needs := accessibility.mobility_needs
    sensory_needs := accessibility.sensory_needs
    cognitive_needs := accessibility.cognitive_needs
    assistance_preferences := accessibility.assistance_preferences
    mobility_aids := accessibility.mobility_aids
    accessibility_priorities := accessibility.accessibility_priorities
    barrier_concerns := accessibility.barrier_concerns
    dietary_restrictions := accessibility.dietary_restrictions
    service_animal := accessibility.service_animal
    communication_needs := accessibility.communication_needs }

/-- `ContextService._create_travel_preferences_summary` as a function. -/
def createTravelPreferencesSummary (profile : UserProfile) :
    TravelPreferencesSummary :=
  let interests := profile.travel_interests
  { preferred_destinations := interests.preferred_destinations
    travel_styles := interests.travel_style
    budget_range := interests.budget_range
    group_size_preference := interests.group_size_preference
    accommodation_preferences := interests.accommodation_preferences
    activity_interests := interests.activity_interests
    transportation_preferences := interests.transportation_preferences }

/-- The `base_context` f-string of `_generate_personalized_instructions`. -/
def baseContext (profile : UserProfile) : String :=
  "\nYou are helping " ++ profile.basic_info.name ++ ", a " ++
    ageText profile.basic_info.age ++ " traveler from " ++
    profile.basic_info.home_location ++ ", " ++
    profile.basic_info.nationality ++
    ".\n\nCOMMUNICATION STYLE: " ++
    profile.preferences.communication_style.value ++
    " - Adapt your responses accordingly.\nRISK TOLERANCE: " ++
    profile.preferences.risk_tolerance.value ++
    " - Consider this in recommendations.\n"

/-- The `accessibility_context` f-string: empty unless some mobility,
sensory, or cognitive need is present. -/
def accessibilityContext (profile : UserProfile) : String :=
  let accessibility := profile.accessibility_profile
  if listTruthy accessibility.mobility_needs ||
      listTruthy accessibility.sensory_needs ||
      listTruthy accessibility.cognitive_needs then
    "\nACCESSIBILITY NEEDS:\n- Mobility: " ++
      joinOr accessibility.mobility_needs "None specified" ++
      "\n- Sensory: " ++
      joinOr accessibility.sensory_needs "None specified" ++
      "\n- Cognitive: " ++
      joinOr accessibility.cognitive_needs "None specified" ++
      "\n- Mobility Aids: " ++
      joinOr accessibility.mobility_aids "None" ++
      "\n- Priority Concerns: " ++
      joinOr accessibility.barrier_concerns "None specified" ++
      "\n\nASSISTANCE PREFERENCES: " ++
      pyDictRepr accessibility.assistance_preferences ++ "\n"
  else ""

/-- The `travel_context` f-string. -/
def travelContext (profile : UserProfile) : String :=
  let interests := profile.travel_interests
  "\nTRAVEL PREFERENCES:\n- Destinations: " ++
    joinOr interests.preferred_destinations "Open to suggestions" ++
    "\n- Travel Style: " ++
    joinOr (interests.travel_style.map TravelStyle.value) "Flexible" ++
    "\n- Budget: " ++ interests.budget_range.value ++
    "\n- Group Size: " ++ interests.group_size_preference ++
    "\n- Activities: " ++
    joinOr interests.activity_interests "Open to suggestions" ++ "\n"

/-- `full_context` in `_generate_personalized_instructions`. -/
def fullContext (profile : UserProfile) : String :=
  baseContext profile ++ accessibilityContext profile ++ travelContext profile

/-- The role-specific closing paragraphs of
`_generate_personalized_instructions`, keyed by agent role name. -/
def roleSuffix : List (String × String) :=
  [("root_agent",
    "\nRoute requests to the most appropriate specialized agent based on the user" ++
      sq ++ "s accessibility needs and travel preferences.\nAlways prioritize accessibility considerations in your routing decisions.\n"),
   ("inspiration_agent",
    "\nFocus on destinations and experiences that match both the user" ++
      sq ++ "s interests and accessibility needs.\nHighlight accessibility features and disabled traveler reviews when available.\n"),
   ("planning_agent",
    "\nPrioritize accessible flights, hotels, and transportation options.\nAlways consider the user" ++
      sq ++ "s mobility aids and assistance needs when making recommendations.\nInclude accessibility features and costs in all suggestions.\n"),
   ("booking_agent",
    "\nAutomatically include all necessary accessibility accommodations in bookings.\nCommunicate the user" ++
      sq ++ "s specific needs to service providers.\nEnsure all accessibility services are confirmed and documented.\n"),
   ("accessibility_research_agent",
    "\nFocus your research on the user" ++ sq ++
      "s specific accessibility needs and concerns.\nPrioritize information about barriers they" ++
      sq ++ "ve identified as concerning.\nLook for reviews from travelers with similar accessibility profiles.\n"),
   ("mobility_preparation_agent",
    "\nFocus on the user" ++ sq ++
      "s specific mobility aids and medical requirements.\nProvide detailed guidance for their particular equipment and documentation needs.\nConsider their travel style and destinations when making preparation recommendations.\n"),
   ("transit_support_agent",
    "\nArrange assistance services that match the user" ++ sq ++
      "s specific preferences and needs.\nFocus on their preferred assistance types and communication methods.\nEnsure all arrangements accommodate their mobility aids and requirements.\n"),
   ("barrier_navigation_agent",
    "\nPrioritize solutions for the barriers the user has identified as most concerning.\nProvide alternatives that match their accessibility needs and travel preferences.\nConsider their risk tolerance when suggesting workarounds.\n")]

/-- `ContextService._generate_personalized_instructions`: each role maps to
`full_context` followed by its fixed closing paragraph. -/
def generatePersonalizedInstructions (profile : UserProfile) :
    List (String × String) :=
  roleSuffix.map fun kv => (kv.1, fullContext profile ++ kv.2)

/-- `ContextService._create_personalized_context`. -/
def createPersonalizedContext (profile : UserProfile) : PersonalizedContext :=
  { user_info :=
      { name := profile.basic_info.name
        age := profile.basic_info.age
        nationality := profile.basic_info.nationality
        home_location := profile.basic_info.home_location }
    accessibility_summary := createAccessibilitySummary profile
    travel_preferences := createTravelPreferencesSummary profile
    communication_style := profile.preferences.communication_style
    personalized_instructions := generatePersonalizedInstructions profile }

/-- The session-state keys read and written by the context service
(`session.state` is a dict; a `none` field models an absent key). -/
structure SessionState where
  user_profile : Option UserProfile := none
  user_id : Option String := none
  context_injected : Option Bool := none
  context_timestamp : Option Nat := none
  personalized_context : Option PersonalizedContext := none
  learned_preferences : Option (List (String × String)) := none
  deriving DecidableEq, Repr

/-- The dict returned by `get_user_context_from_session`. -/
structure UserContext where
  user_profile : Option UserProfile
  user_id : Option String
  personalized_context : Option PersonalizedContext
  context_timestamp : Option Nat
  deriving DecidableEq, Repr

/-- `ContextService.inject_user_context`: resolves the profile (absence
returns `False` with no session mutation), refreshes `last_active` through
the profile service, then writes the profile, the id, the injected flag,
the timestamp, and the personalized context into session state. -/
def injectUserContext (s : ServiceState) (session : SessionState)
    (uid : String) (now : Nat) (getFails touchFails : Bool) :
    Except String (Bool × ServiceState × SessionState) :=
  let body : Except String (Bool × ServiceState × SessionState) :=
    match getUserProfile s uid getFails with
    | .error e => .error e
    | .ok none => .ok (false, s, session)
    | .ok (some user_profile) =>
      match updateLastActive s uid now touchFails with
      | .error e => .error e
      | .ok (_, s2) =>
        let session2 : SessionState :=
          { session with
            user_profile := some user_profile
            user_id := some uid
            context_injected := some true
            context_timestamp := some now
            personalized_context := some (createPersonalizedContext user_profile) }
        .ok (true, s2, session2)
  match body with
  | .ok v => .ok v
  | .error _ => .ok (false, s, session)

/-- `ContextService.get_user_context_from_session`: pure read, guarded by
the truthiness of the `context_injected` key. -/
def getUserContextFromSession (session : SessionState) : Option UserContext :=
  if session.context_injected.getD false then
    some
      { user_profile := session.user_profile
        user_id := session.user_id
        personalized_context := session.personalized_context
        context_timestamp := session.context_timestamp }
  else none

/-! ### Operation sequences and reachable states

A trace of service calls, each carrying the nondeterministic inputs the
Python code obtains from outside: the fresh `uuid4` for `create` and the
failure oracle of every Firestore call site.  The logical clock supplies
`datetime.utcnow()` and advances once per call. -/

/-- One service call together with its external nondeterminism. -/
inductive Op where
  | create (uid : String) (request : CreateUserProfileRequest) (setFails : Bool)
  | update (uid : String) (request : UpdateUserProfileRequest)
      (getFails updFails getFails2 : Bool)
  | delete (uid : String) (getFails delFails : Bool)
  | touch (uid : String) (updFails : Bool)
  deriving Repr

/-- Applying one call to the service state, advancing the clock. -/
def applyOp : ServiceState × Nat → Op → ServiceState × Nat
  | (s, t), .create uid request setFails =>
    match createUserProfile s uid t request setFails with
    | .ok (_, s2) => (s2, t + 1)
    | .error _ => (s, t + 1)
  | (s, t), .update uid request f1 f2 f3 =>
    match updateUserProfile s uid t request f1 f2 f3 with
    | .ok (_, s2) => (s2, t + 1)
    | .error _ => (s, t + 1)
  | (s, t), .delete uid f1 f2 =>
    match deleteUserProfile s uid f1 f2 with
    | .ok (_, s2) => (s2, t + 1)
    | .error _ => (s, t + 1)
  | (s, t), .touch uid f =>
    match updateLastActive s uid t f with
    | .ok (_, s2) => (s2, t + 1)
    | .error _ => (s, t + 1)

/-- The state after `__init__`: both stores empty; `initFails` is the
oracle for the Firestore client constructor (`self.db = None` on failure). -/
def initState (initFails : Bool) : ServiceState :=
  { db := !initFails, fs := [], mem := [] }

/-- Running a trace of calls from a freshly constructed service. -/
def runOps (initFails : Bool) (ops : List Op) : ServiceState × Nat :=
  ops.foldl applyOp (initState initFails, 0)

/-- A trace whose `create` calls use ids not already stored: the freshness
that `uuid.uuid4()` provides in the source. -/
def freshTrace : ServiceState × Nat → List Op → Prop
  | _, [] => True
  | st, op :: rest =>
    (match op with
     | .create uid _ _ =>
       lookupKey st.1.mem uid = none ∧ lookupKey st.1.fs uid = none
     | _ => True) ∧ freshTrace (applyOp st op) rest

instance : ∀ st ops, Decidable (freshTrace st ops) := by
  intro st ops
  induction ops generalizing st with
  | nil => exact isTrue trivial
  | cons op rest ih =>
    have hA : Decidable
        (match op with
         | .create uid _ _ =>
           lookupKey st.1.mem uid = none ∧ lookupKey st.1.fs uid = none
         | _ => True) := by
      cases op <;> infer_instance
    have hB := ih (applyOp st op)
    simp only [freshTrace]
    exact @instDecidableAnd _ _ hA hB

/-! ### Substring containment

A small executable substring test used to state the context-injection
claims about instruction strings. -/

/-- `containsSub hay pat`: `pat` occurs as a contiguous run inside `hay`. -/
def containsSub : List Char → List Char → Bool
  | [], pat => pat.isEmpty
  | c :: rest, pat => pat.isPrefixOf (c :: rest) || containsSub rest pat

/-- `pat` occurs in `s` (Python `pat in s`). -/
def strContains (s pat : String) : Bool := containsSub s.data pat.data

theorem strData_append (a b : String) : (a ++ b).data = a.data ++ b.data := rfl

theorem isPrefixOf_append_self (pat b : List Char) :
    pat.isPrefixOf (pat ++ b) = true := by
  induction pat with
  | nil => cases b <;> rfl
  | cons c rest ih => simp [List.isPrefixOf, ih]

theorem containsSub_of_isPrefixOf {t pat : List Char}
    (h : pat.isPrefixOf t = true) : containsSub t pat = true := by
  cases t with
  | nil =>
    cases pat with
    | nil => rfl
    | cons c rest => simp [List.isPrefixOf] at h
  | cons c rest => simp [containsSub, h]

theorem containsSub_append_left {t pat : List Char} (s : List Char)
    (h : containsSub t pat = true) : containsSub (s ++ t) pat = true := by
  induction s with
  | nil => simpa using h
  | cons c rest ih => simp [containsSub, ih]

theorem containsSub_sandwich (s b pat : List Char) :
    containsSub (s ++ (pat ++ b)) pat = true :=
  containsSub_append_left s
    (containsSub_of_isPrefixOf (isPrefixOf_append_self pat b))

/-! ### Keyed-store lemmas -/

theorem lookupKey_setKey_self {α : Type} (m : List (String × α)) (k : String)
    (v : α) : lookupKey (setKey m k v) k = some v := by
  induction m with
  | nil => simp [setKey, lookupKey]
  | cons kv rest ih =>
    by_cases h : kv.1 = k
    · simp [setKey, h, lookupKey]
    · simp [setKey, h, lookupKey, ih]

theorem lookupKey_updateValueAt_self {α : Type} (m : List (String × α))
    (k : String) (f : α → α) :
    lookupKey (updateValueAt m k f) k = (lookupKey m k).map f := by
  induction m with
  | nil => simp [updateValueAt, lookupKey]
  | cons kv rest ih =>
    by_cases h : kv.1 = k
    · simp [updateValueAt, h, lookupKey]
    · simpa [updateValueAt, h, lookupKey] using ih

theorem lookupKey_updateValueAt_ne {α : Type} (m : List (String × α))
    (k k' : String) (f : α → α) (h : k' ≠ k) :
    lookupKey (updateValueAt m k f) k' = lookupKey m k' := by
  induction m with
  | nil => rfl
  | cons kv rest ih =>
    simp only [updateValueAt, List.map_cons] at ih ⊢
    by_cases hk : kv.1 = k
    · have h1 : ¬kv.1 = k' := fun hc => h (hc.symm.trans hk)
      rw [if_pos hk]
      show (if kv.1 = k' then some (f kv.2) else _) = _
      rw [if_neg h1]
      show _ = (if kv.1 = k' then some kv.2 else _)
      rw [if_neg h1]
      exact ih
    · rw [if_neg hk]
      show (if kv.1 = k' then some kv.2 else _) =
        (if kv.1 = k' then some kv.2 else _)
      by_cases hk' : kv.1 = k'
      · rw [if_pos hk', if_pos hk']
      · rw [if_neg hk', if_neg hk']
        exact ih

theorem lookupKey_mem {α : Type} {m : List (String × α)} {k : String} {v : α}
    (h : lookupKey m k = some v) : (k, v) ∈ m := by
  induction m with
  | nil => simp [lookupKey] at h
  | cons kv rest ih =>
    obtain ⟨a, b⟩ := kv
    by_cases hk : a = k
    · simp only [lookupKey] at h
      rw [if_pos hk] at h
      cases h
      rw [hk]
      exact List.mem_cons_self _ _
    · simp only [lookupKey] at h
      rw [if_neg hk] at h
      exact List.mem_cons_of_mem _ (ih h)

theorem mem_setKey {α : Type} {m : List (String × α)} {k : String} {v : α}
    {kv : String × α} (h : kv ∈ setKey m k v) : kv = (k, v) ∨ kv ∈ m := by
  induction m with
  | nil => simpa [setKey] using h
  | cons kv0 rest ih =>
    by_cases hk : kv0.1 = k
    · simp [setKey, hk] at h
      rcases h with h | h
      · exact Or.inl h
      · exact Or.inr (List.mem_cons_of_mem _ h)
    · simp [setKey, hk] at h
      rcases h with h | h
      · exact Or.inr (by simp [h])
      · rcases ih h with h' | h'
        · exact Or.inl h'
        · exact Or.inr (List.mem_cons_of_mem _ h')

theorem mem_updateValueAt {α : Type} {m : List (String × α)} {k : String}
    {f : α → α} {kv : String × α} (h : kv ∈ updateValueAt m k f) :
    kv ∈ m ∨ ∃ kv0 ∈ m, kv0.1 = k ∧ kv = (kv0.1, f kv0.2) := by
  rcases List.mem_map.mp h with ⟨kv0, hmem, heq⟩
  by_cases hk : kv0.1 = k
  · exact Or.inr ⟨kv0, hmem, hk, by simpa [hk] using heq.symm⟩
  · simp [hk] at heq
    exact Or.inl (heq ▸ hmem)

theorem mem_eraseKey {α : Type} {m : List (String × α)} {k : String}
    {kv : String × α} (h : kv ∈ eraseKey m k) : kv ∈ m :=
  List.mem_of_mem_filter h

/-- Key uniqueness: in a duplicate-free store, membership with the looked-up
key pins the value to the lookup result. -/
theorem lookupKey_of_mem_nodup {α : Type} {m : List (String × α)}
    (hnd : m.Pairwise fun a b => a.1 ≠ b.1) {kv : String × α} (h : kv ∈ m) :
    lookupKey m kv.1 = some kv.2 := by
  induction m with
  | nil => simp at h
  | cons kv0 rest ih =>
    rcases List.mem_cons.mp h with h | h
    · simp [h, lookupKey]
    · have hne : kv0.1 ≠ kv.1 := (List.pairwise_cons.mp hnd).1 kv h
      simp [lookupKey, hne]
      exact ih (List.pairwise_cons.mp hnd).2 h

/-! ### Characterizing each call's effect on the state -/

/-- Merging only a `last_active` key is a plain field update. -/
theorem applyUpdateData_lastActive (q : UserProfile) (t : Nat) :
    applyUpdateData q { last_active := some t } =
      { q with last_active := some t } := rfl

theorem applyOp_create (s : ServiceState) (t : Nat) (uid : String)
    (r : CreateUserProfileRequest) (f : Bool) :
    applyOp (s, t) (.create uid r f) =
      ((if s.db then
          if f then
            { s with
                db := false
                mem := setKey s.mem uid (profileFromRequest uid t r) }
          else { s with fs := setKey s.fs uid (profileFromRequest uid t r) }
        else { s with mem := setKey s.mem uid (profileFromRequest uid t r) }),
       t + 1) := by
  by_cases hdb : s.db <;> by_cases hf : f <;>
    simp [applyOp, createUserProfile, useMemoryStore, firestoreSet, hdb, hf]

theorem applyOp_update (s : ServiceState) (t : Nat) (uid : String)
    (r : UpdateUserProfileRequest) (f1 f2 f3 : Bool) :
    applyOp (s, t) (.update uid r f1 f2 f3) =
      ((if s.db then
          if f1 then s
          else
            match lookupKey s.fs uid with
            | none => s
            | some p =>
              if f2 then s
              else
                { s with fs := updateValueAt s.fs uid fun q =>
                    applyUpdateData q (buildUpdateData p r t) }
        else
          match lookupKey s.mem uid with
          | none => s
          | some p =>
            { s with mem := updateValueAt s.mem uid fun q =>
                applyUpdateData q (buildUpdateData p r t) }),
       t + 1) := by
  by_cases hdb : s.db
  · by_cases hf1 : f1
    · simp [applyOp, updateUserProfile, getUserProfile, useMemoryStore,
        firestoreGet, hdb, hf1]
    · rcases hlk : lookupKey s.fs uid with _ | p
      · simp [applyOp, updateUserProfile, getUserProfile, useMemoryStore,
          firestoreGet, hdb, hf1, hlk]
      · by_cases hf2 : f2
        · simp [applyOp, updateUserProfile, getUserProfile, useMemoryStore,
            firestoreGet, firestoreUpdate, hdb, hf1, hf2, hlk]
        · by_cases hf3 : f3 <;>
            simp [applyOp, updateUserProfile, getUserProfile, useMemoryStore,
              firestoreGet, firestoreUpdate, hdb, hf1, hf2, hf3, hlk]
  · rcases hlk : lookupKey s.mem uid with _ | p <;>
      simp [applyOp, updateUserProfile, getUserProfile, useMemoryStore,
        hdb, hlk]

theorem applyOp_delete (s : ServiceState) (t : Nat) (uid : String)
    (f1 f2 : Bool) :
    applyOp (s, t) (.delete uid f1 f2) =
      ((if s.db then
          if f1 then s
          else
            match lookupKey s.fs uid with
            | none => s
            | some _ => if f2 then s else { s with fs := eraseKey s.fs uid }
        else
          if (lookupKey s.mem uid).isSome then
            { s with mem := eraseKey s.mem uid }
          else s),
       t + 1) := by
  by_cases hdb : s.db
  · by_cases hf1 : f1
    · simp [applyOp, deleteUserProfile, useMemoryStore, firestoreGet, hdb, hf1]
    · rcases hlk : lookupKey s.fs uid with _ | p
      · simp [applyOp, deleteUserProfile, useMemoryStore, firestoreGet,
          hdb, hf1, hlk]
      · by_cases hf2 : f2 <;>
          simp [applyOp, deleteUserProfile, useMemoryStore, firestoreGet,
            firestoreDelete, hdb, hf1, hf2, hlk]
  · by_cases hlk : (lookupKey s.mem uid).isSome <;>
      simp [applyOp, deleteUserProfile, useMemoryStore, hdb, hlk]

theorem applyOp_touch (s : ServiceState) (t : Nat) (uid : String) (f : Bool) :
    applyOp (s, t) (.touch uid f) =
      ((if s.db then
          if f then s
          else
            match lookupKey s.fs uid with
            | none => s
            | some _ =>
              { s with fs := updateValueAt s.fs uid fun q =>
                  { q with last_active := some t } }
        else
          if (lookupKey s.mem uid).isSome then
            { s with mem := updateValueAt s.mem uid fun q =>
                { q with last_active := some t } }
          else s),
       t + 1) := by
  by_cases hdb : s.db
  · by_cases hf : f
    · simp [applyOp, updateLastActive, useMemoryStore, firestoreUpdate, hdb, hf]
    · rcases hlk : lookupKey s.fs uid with _ | p <;>
        simp [applyOp, updateLastActive, useMemoryStore, firestoreUpdate,
          hdb, hf, hlk, applyUpdateData_lastActive]
  · by_cases hlk : (lookupKey s.mem uid).isSome <;>
      simp [applyOp, updateLastActive, useMemoryStore, hdb, hlk]

/-! ### Completeness lemmas -/

/-- The create-time completeness check agrees with the stored-profile
check on the record `create_user_profile` builds. -/
theorem isProfileComplete_eq_fromProfile (uid : String) (now : Nat)
    (r : CreateUserProfileRequest) :
    isProfileComplete r =
      isProfileCompleteFromProfile (profileFromRequest uid now r) := by
  rcases r with ⟨b, ti, ap, pr⟩
  cases ti <;> cases ap <;>
    simp [isProfileComplete, isProfileCompleteFromProfile, profileFromRequest,
      listTruthy]

/-- The completeness check reads only the three content sub-objects. -/
theorem isProfileCompleteFromProfile_congr {p q : UserProfile}
    (hb : p.basic_info = q.basic_info)
    (ht : p.travel_interests = q.travel_interests)
    (ha : p.accessibility_profile = q.accessibility_profile) :
    isProfileCompleteFromProfile p = isProfileCompleteFromProfile q := by
  simp [isProfileCompleteFromProfile, hb, ht, ha]

/-- Overriding the `profile_complete` key of a payload does not change the
completeness of the merged record. -/
theorem isPCFP_applyUpdateData_set_pc (q : UserProfile) (u : UpdateData)
    (c : Bool) :
    isProfileCompleteFromProfile
        (applyUpdateData q { u with profile_complete := some c }) =
      isProfileCompleteFromProfile (applyUpdateData q u) := rfl

theorem pc_applyUpdateData_set (q : UserProfile) (u : UpdateData) (c : Bool) :
    (applyUpdateData q { u with profile_complete := some c }).profile_complete
      = c := rfl

/-- The completeness flag of a record merged with `update_user_profile`'s
payload is the completeness of the merged record itself. -/
theorem pc_applyUpdateData_buildUpdateData (p : UserProfile)
    (r : UpdateUserProfileRequest) (now : Nat)
    (hp : p.profile_complete = isProfileCompleteFromProfile p) :
    (applyUpdateData p (buildUpdateData p r now)).profile_complete =
      isProfileCompleteFromProfile
        (applyUpdateData p (buildUpdateData p r now)) := by
  by_cases h : r.basic_info.isSome || r.travel_interests.isSome ||
      r.accessibility_profile.isSome
  · rw [buildUpdateData, if_pos h, pc_applyUpdateData_set,
      isPCFP_applyUpdateData_set_pc]
  · rw [buildUpdateData, if_neg h]
    have hbn : r.basic_info = none := by
      cases hv : r.basic_info with
      | none => rfl
      | some x => exact absurd (by simp [hv]) h
    have htn : r.travel_interests = none := by
      cases hv : r.travel_interests with
      | none => rfl
      | some x => exact absurd (by simp [hv]) h
    have han : r.accessibility_profile = none := by
      cases hv : r.accessibility_profile with
      | none => rfl
      | some x => exact absurd (by simp [hv]) h
    have h3 : r.basic_info = none ∧ r.travel_interests = none ∧
        r.accessibility_profile = none := ⟨hbn, htn, han⟩
    have hc : isProfileCompleteFromProfile
        (applyUpdateData p
          { basic_info := r.basic_info
            travel_interests := r.travel_interests
            accessibility_profile := r.accessibility_profile
            preferences := r.preferences
            updated_at := some now }) = isProfileCompleteFromProfile p := by
      apply isProfileCompleteFromProfile_congr <;>
        simp [applyUpdateData, h3.1, h3.2.1, h3.2.2]
    rw [hc]
    simpa [applyUpdateData, h3.1, h3.2.1, h3.2.2] using hp

/-! ### Store-shape lemmas: key sets and ordering -/

theorem setKey_eq_append {α : Type} {m : List (String × α)} {k : String}
    (v : α) (h : lookupKey m k = none) : setKey m k v = m ++ [(k, v)] := by
  induction m with
  | nil => rfl
  | cons kv rest ih =>
    simp only [lookupKey] at h
    by_cases hk : kv.1 = k
    · rw [if_pos hk] at h
      cases h
    · rw [if_neg hk] at h
      simp [setKey, hk, ih h]

theorem map_fst_setKey_some {α : Type} {m : List (String × α)} {k : String}
    (v : α) (h : (lookupKey m k).isSome) :
    (setKey m k v).map (·.1) = m.map (·.1) := by
  induction m with
  | nil => simp [lookupKey] at h
  | cons kv rest ih =>
    simp only [lookupKey] at h
    by_cases hk : kv.1 = k
    · simp [setKey, hk]
    · rw [if_neg hk] at h
      simp [setKey, hk, ih h]

theorem map_fst_updateValueAt {α : Type} (m : List (String × α)) (k : String)
    (f : α → α) : (updateValueAt m k f).map (·.1) = m.map (·.1) := by
  induction m with
  | nil => rfl
  | cons kv rest ih =>
    by_cases hk : kv.1 = k <;> simp [updateValueAt, hk] at ih ⊢ <;> exact ih

theorem lookupKey_eq_none_iff {α : Type} (m : List (String × α)) (k : String) :
    lookupKey m k = none ↔ k ∉ m.map (·.1) := by
  induction m with
  | nil => simp [lookupKey]
  | cons kv rest ih =>
    by_cases hk : kv.1 = k
    · simp [lookupKey, hk]
    · simp only [lookupKey, if_neg hk, List.map_cons, List.mem_cons]
      rw [ih]
      constructor
      · intro h hc
        rcases hc with hc | hc
        · exact hk hc.symm
        · exact h hc
      · intro h hc
        exact h (Or.inr hc)

theorem nodup_keys_setKey {α : Type} {m : List (String × α)} {k : String}
    (v : α) (h : (m.map (·.1)).Nodup) :
    ((setKey m k v).map (·.1)).Nodup := by
  rcases hlk : lookupKey m k with _ | w
  · rw [setKey_eq_append v hlk]
    simp only [List.map_append, List.map_cons, List.map_nil]
    rw [List.nodup_append]
    exact ⟨h, List.nodup_singleton k,
      by simpa using fun hc => (lookupKey_eq_none_iff m k).mp hlk hc⟩
  · rw [map_fst_setKey_some v (by simp [hlk])]
    exact h

theorem nodup_keys_updateValueAt {α : Type} {m : List (String × α)}
    {k : String} (f : α → α) (h : (m.map (·.1)).Nodup) :
    ((updateValueAt m k f).map (·.1)).Nodup := by
  rw [map_fst_updateValueAt]
  exact h

theorem eraseKey_sublist {α : Type} (m : List (String × α)) (k : String) :
    (eraseKey m k).Sublist m := List.filter_sublist m

theorem nodup_keys_eraseKey {α : Type} {m : List (String × α)} {k : String}
    (h : (m.map (·.1)).Nodup) : ((eraseKey m k).map (·.1)).Nodup :=
  ((eraseKey_sublist m k).map (·.1)).nodup h

/-- `updateValueAt` with a `created_at`-preserving function keeps the
store's creation order. -/
theorem pairwise_created_updateValueAt {m : List (String × UserProfile)}
    {k : String} {f : UserProfile → UserProfile}
    (hf : ∀ q, (f q).created_at = q.created_at)
    (h : m.Pairwise fun a b => a.2.created_at < b.2.created_at) :
    (updateValueAt m k f).Pairwise
      fun a b => a.2.created_at < b.2.created_at := by
  rw [updateValueAt, List.pairwise_map]
  refine h.imp_of_mem fun ha hb hab => ?_
  have g2 : ∀ kv : String × UserProfile,
      ((if kv.1 = k then (kv.1, f kv.2) else kv) : String × UserProfile).2.created_at
        = kv.2.created_at := by
    intro kv
    by_cases hk : kv.1 = k <;> simp [hk, hf]
  rw [g2, g2]
  exact hab

theorem pairwise_created_eraseKey {m : List (String × UserProfile)}
    {k : String}
    (h : m.Pairwise fun a b => a.2.created_at < b.2.created_at) :
    (eraseKey m k).Pairwise fun a b => a.2.created_at < b.2.created_at :=
  h.sublist (eraseKey_sublist m k)

theorem pairwise_created_append_fresh {m : List (String × UserProfile)}
    {t : Nat} (kv : String × UserProfile)
    (h : m.Pairwise fun a b => a.2.created_at < b.2.created_at)
    (hlt : ∀ x ∈ m, x.2.created_at < t) (hkv : kv.2.created_at = t) :
    (m ++ [kv]).Pairwise fun a b => a.2.created_at < b.2.created_at := by
  rw [List.pairwise_append]
  exact ⟨h, List.pairwise_singleton _ _,
    fun a ha b hb => by
      rcases List.mem_singleton.mp hb with rfl
      rw [hkv]
      exact hlt a ha⟩

/-! ### The service invariant -/

/-- Shorthand for the stored-completeness property of one store. -/
def completeStore (m : List (String × UserProfile)) : Prop :=
  ∀ kv ∈ m, kv.2.profile_complete = isProfileCompleteFromProfile kv.2

/-- Invariant holding after every trace: both stores have duplicate-free
keys, and every stored record's `profile_complete` flag agrees with the
completeness check on that record. -/
structure Inv (s : ServiceState) : Prop where
  nodupMem : (s.mem.map (·.1)).Nodup
  nodupFs : (s.fs.map (·.1)).Nodup
  completeMem : completeStore s.mem
  completeFs : completeStore s.fs

theorem completeStore_setKey {m : List (String × UserProfile)} {k : String}
    {v : UserProfile} (h : completeStore m)
    (hv : v.profile_complete = isProfileCompleteFromProfile v) :
    completeStore (setKey m k v) := by
  intro kv hm
  rcases mem_setKey hm with rfl | hm'
  · exact hv
  · exact h kv hm'

theorem completeStore_updateValueAt {m : List (String × UserProfile)}
    {k : String} {p : UserProfile} {f : UserProfile → UserProfile}
    (hnd : (m.map (·.1)).Nodup) (hlk : lookupKey m k = some p)
    (h : completeStore m)
    (hf : (f p).profile_complete = isProfileCompleteFromProfile (f p)) :
    completeStore (updateValueAt m k f) := by
  intro kv hm
  rcases mem_updateValueAt hm with hm' | ⟨kv0, hm0, hk0, rfl⟩
  · exact h kv hm'
  · have hpair : m.Pairwise fun a b => a.1 ≠ b.1 := List.pairwise_map.mp hnd
    have huniq := lookupKey_of_mem_nodup hpair hm0
    rw [hk0, hlk] at huniq
    cases huniq
    exact hf

theorem completeStore_eraseKey {m : List (String × UserProfile)} {k : String}
    (h : completeStore m) : completeStore (eraseKey m k) :=
  fun kv hm => h kv (mem_eraseKey hm)

/-- A record touched only in `last_active` keeps a correct flag. -/
theorem complete_set_lastActive {q : UserProfile} (t : Nat)
    (h : q.profile_complete = isProfileCompleteFromProfile q) :
    ({ q with last_active := some t } : UserProfile).profile_complete =
      isProfileCompleteFromProfile { q with last_active := some t } := by
  rw [isProfileCompleteFromProfile_congr (p := { q with last_active := some t })
    (q := q) rfl rfl rfl]
  exact h

/-- Constructor for the invariant on an explicit state literal. -/
theorem Inv.ofParts {db : Bool} {fs mem : List (String × UserProfile)}
    (h1 : (mem.map (·.1)).Nodup) (h2 : (fs.map (·.1)).Nodup)
    (h3 : completeStore mem) (h4 : completeStore fs) :
    Inv ⟨db, fs, mem⟩ := ⟨h1, h2, h3, h4⟩

/-- The invariant is preserved by every service call. -/
theorem inv_applyOp (st : ServiceState × Nat) (op : Op) (h : Inv st.1) :
    Inv (applyOp st op).1 := by
  obtain ⟨s, t⟩ := st
  obtain ⟨hnm, hnf, hcm, hcf⟩ := h
  obtain ⟨db, fs, mem⟩ := s
  simp only at hnm hnf hcm hcf
  cases op with
  | create uid r f =>
    rw [applyOp_create]
    have hpc : (profileFromRequest uid t r).profile_complete =
        isProfileCompleteFromProfile (profileFromRequest uid t r) :=
      isProfileComplete_eq_fromProfile uid t r
    by_cases hdb : db
    · by_cases hf : f
      · rw [if_pos hdb, if_pos hf]
        exact Inv.ofParts (nodup_keys_setKey _ hnm) hnf
          (completeStore_setKey hcm hpc) hcf
      · rw [if_pos hdb, if_neg hf]
        exact Inv.ofParts hnm (nodup_keys_setKey _ hnf) hcm
          (completeStore_setKey hcf hpc)
    · rw [if_neg hdb]
      exact Inv.ofParts (nodup_keys_setKey _ hnm) hnf
        (completeStore_setKey hcm hpc) hcf
  | update uid r f1 f2 f3 =>
    rw [applyOp_update]
    by_cases hdb : db
    · by_cases hf1 : f1
      · rw [if_pos hdb, if_pos hf1]
        exact Inv.ofParts hnm hnf hcm hcf
      · rw [if_pos hdb, if_neg hf1]
        rcases hlk : lookupKey fs uid with _ | p
        · exact Inv.ofParts hnm hnf hcm hcf
        · dsimp only
          by_cases hf2 : f2
          · rw [if_pos hf2]
            exact Inv.ofParts hnm hnf hcm hcf
          · rw [if_neg hf2]
            exact Inv.ofParts hnm (nodup_keys_updateValueAt _ hnf) hcm
              (completeStore_updateValueAt hnf hlk hcf
                (pc_applyUpdateData_buildUpdateData p r t
                  (hcf (uid, p) (lookupKey_mem hlk))))
    · rw [if_neg hdb]
      rcases hlk : lookupKey mem uid with _ | p
      · exact Inv.ofParts hnm hnf hcm hcf
      · dsimp only
        exact Inv.ofParts (nodup_keys_updateValueAt _ hnm) hnf
          (completeStore_updateValueAt hnm hlk hcm
            (pc_applyUpdateData_buildUpdateData p r t
              (hcm (uid, p) (lookupKey_mem hlk)))) hcf
  | delete uid f1 f2 =>
    rw [applyOp_delete]
    by_cases hdb : db
    · by_cases hf1 : f1
      · rw [if_pos hdb, if_pos hf1]
        exact Inv.ofParts hnm hnf hcm hcf
      · rw [if_pos hdb, if_neg hf1]
        rcases hlk : lookupKey fs uid with _ | p
        · exact Inv.ofParts hnm hnf hcm hcf
        · dsimp only
          by_cases hf2 : f2
          · rw [if_pos hf2]
            exact Inv.ofParts hnm hnf hcm hcf
          · rw [if_neg hf2]
            exact Inv.ofParts hnm (nodup_keys_eraseKey hnf) hcm
              (completeStore_eraseKey hcf)
    · rw [if_neg hdb]
      by_cases hlk : (lookupKey mem uid).isSome
      · rw [if_pos hlk]
        exact Inv.ofParts (nodup_keys_eraseKey hnm) hnf
          (completeStore_eraseKey hcm) hcf
      · rw [if_neg hlk]
        exact Inv.ofParts hnm hnf hcm hcf
  | touch uid f =>
    rw [applyOp_touch]
    by_cases hdb : db
    · by_cases hf : f
      · rw [if_pos hdb, if_pos hf]
        exact Inv.ofParts hnm hnf hcm hcf
      · rw [if_pos hdb, if_neg hf]
        rcases hlk : lookupKey fs uid with _ | p
        · exact Inv.ofParts hnm hnf hcm hcf
        · dsimp only
          exact Inv.ofParts hnm (nodup_keys_updateValueAt _ hnf) hcm
            (completeStore_updateValueAt hnf hlk hcf
              (complete_set_lastActive t (hcf (uid, p) (lookupKey_mem hlk))))
    · rw [if_neg hdb]
      rcases hlk : lookupKey mem uid with _ | p
      · rw [if_neg (by simp)]
        exact Inv.ofParts hnm hnf hcm hcf
      · rw [if_pos (by simp)]
        dsimp only
        exact Inv.ofParts (nodup_keys_updateValueAt _ hnm) hnf
          (completeStore_updateValueAt hnm hlk hcm
            (complete_set_lastActive t (hcm (uid, p) (lookupKey_mem hlk)))) hcf

/-- The invariant holds after construction. -/
theorem inv_initState (b : Bool) : Inv (initState b) :=
  ⟨List.nodup_nil, List.nodup_nil, fun _ hm => absurd hm (List.not_mem_nil _),
    fun _ hm => absurd hm (List.not_mem_nil _)⟩

/-- The invariant holds in every reachable state. -/
theorem inv_runOps (b : Bool) (ops : List Op) : Inv (runOps b ops).1 := by
  rw [runOps]
  generalize hst : (initState b, 0) = st
  have h0 : Inv st.1 := by
    rw [← hst]
    exact inv_initState b
  clear hst
  induction ops generalizing st with
  | nil => exact h0
  | cons op rest ih => exact ih _ (inv_applyOp st op h0)

/-! ### Creation-order invariant (needs fresh `uuid4` ids) -/

theorem created_applyUpdateData (q : UserProfile) (u : UpdateData) :
    (applyUpdateData q u).created_at = q.created_at := rfl

theorem created_set_lastActive (q : UserProfile) (t : Nat) :
    ({ q with last_active := some t } : UserProfile).created_at =
      q.created_at := rfl

/-- Bounded creation stamps plus creation order of both stores. -/
structure SortInv (st : ServiceState × Nat) : Prop where
  ltMem : ∀ kv ∈ st.1.mem, kv.2.created_at < st.2
  ltFs : ∀ kv ∈ st.1.fs, kv.2.created_at < st.2
  sortMem : st.1.mem.Pairwise fun a b => a.2.created_at < b.2.created_at
  sortFs : st.1.fs.Pairwise fun a b => a.2.created_at < b.2.created_at

theorem ltStore_updateValueAt {m : List (String × UserProfile)} {k : String}
    {f : UserProfile → UserProfile} {t : Nat}
    (hf : ∀ q, (f q).created_at = q.created_at)
    (h : ∀ kv ∈ m, kv.2.created_at < t) :
    ∀ kv ∈ updateValueAt m k f, kv.2.created_at < t := by
  intro kv hm
  rcases mem_updateValueAt hm with hm' | ⟨kv0, hm0, hk0, rfl⟩
  · exact h kv hm'
  · simpa [hf] using h kv0 hm0

theorem ltStore_succ {m : List (String × UserProfile)} {t : Nat}
    (h : ∀ kv ∈ m, kv.2.created_at < t) :
    ∀ kv ∈ m, kv.2.created_at < t + 1 :=
  fun kv hm => Nat.lt_succ_of_lt (h kv hm)

theorem ltStore_append_fresh {m : List (String × UserProfile)} {t : Nat}
    {uid : String} {p : UserProfile} (h : ∀ kv ∈ m, kv.2.created_at < t)
    (hp : p.created_at = t) :
    ∀ kv ∈ m ++ [(uid, p)], kv.2.created_at < t + 1 := by
  intro kv hm
  rcases List.mem_append.mp hm with hm' | hm'
  · exact Nat.lt_succ_of_lt (h kv hm')
  · rcases List.mem_singleton.mp hm' with rfl
    simp [hp]

/-- One fresh-id service call preserves the creation-order invariant. -/
theorem sortInv_applyOp (st : ServiceState × Nat) (op : Op)
    (h : SortInv st)
    (hfresh : match op with
      | .create uid _ _ =>
        lookupKey st.1.mem uid = none ∧ lookupKey st.1.fs uid = none
      | _ => True) :
    SortInv (applyOp st op) := by
  obtain ⟨hlm, hlf, hsm, hsf⟩ := h
  obtain ⟨s, t⟩ := st
  obtain ⟨db, fs, mem⟩ := s
  simp only at hlm hlf hsm hsf hfresh
  cases op with
  | create uid r f =>
    obtain ⟨hfm, hff⟩ := hfresh
    have hp : (profileFromRequest uid t r).created_at = t := rfl
    rw [applyOp_create]
    by_cases hdb : db
    · by_cases hf : f
      · rw [if_pos hdb, if_pos hf]
        rw [setKey_eq_append _ hfm]
        exact ⟨ltStore_append_fresh hlm hp, ltStore_succ hlf,
          pairwise_created_append_fresh _ hsm hlm hp, hsf⟩
      · rw [if_pos hdb, if_neg hf]
        rw [setKey_eq_append _ hff]
        exact ⟨ltStore_succ hlm, ltStore_append_fresh hlf hp,
          hsm, pairwise_created_append_fresh _ hsf hlf hp⟩
    · rw [if_neg hdb]
      rw [setKey_eq_append _ hfm]
      exact ⟨ltStore_append_fresh hlm hp, ltStore_succ hlf,
        pairwise_created_append_fresh _ hsm hlm hp, hsf⟩
  | update uid r f1 f2 f3 =>
    rw [applyOp_update]
    by_cases hdb : db
    · by_cases hf1 : f1
      · rw [if_pos hdb, if_pos hf1]
        exact ⟨ltStore_succ hlm, ltStore_succ hlf, hsm, hsf⟩
      · rw [if_pos hdb, if_neg hf1]
        rcases hlk : lookupKey fs uid with _ | p
        · exact ⟨ltStore_succ hlm, ltStore_succ hlf, hsm, hsf⟩
        · dsimp only
          by_cases hf2 : f2
          · rw [if_pos hf2]
            exact ⟨ltStore_succ hlm, ltStore_succ hlf, hsm, hsf⟩
          · rw [if_neg hf2]
            exact ⟨ltStore_succ hlm,
              ltStore_succ (ltStore_updateValueAt
                (fun q => created_applyUpdateData q _) hlf),
              hsm, pairwise_created_updateValueAt
                (fun q => created_applyUpdateData q _) hsf⟩
    · rw [if_neg hdb]
      rcases hlk : lookupKey mem uid with _ | p
      · exact ⟨ltStore_succ hlm, ltStore_succ hlf, hsm, hsf⟩
      · dsimp only
        exact ⟨ltStore_succ (ltStore_updateValueAt
            (fun q => created_applyUpdateData q _) hlm),
          ltStore_succ hlf,
          pairwise_created_updateValueAt
            (fun q => created_applyUpdateData q _) hsm, hsf⟩
  | delete uid f1 f2 =>
    rw [applyOp_delete]
    by_cases hdb : db
    · by_cases hf1 : f1
      · rw [if_pos hdb, if_pos hf1]
        exact ⟨ltStore_succ hlm, ltStore_succ hlf, hsm, hsf⟩
      · rw [if_pos hdb, if_neg hf1]
        rcases hlk : lookupKey fs uid with _ | p
        · exact ⟨ltStore_succ hlm, ltStore_succ hlf, hsm, hsf⟩
        · dsimp only
          by_cases hf2 : f2
          · rw [if_pos hf2]
            exact ⟨ltStore_succ hlm, ltStore_succ hlf, hsm, hsf⟩
          · rw [if_neg hf2]
            exact ⟨ltStore_succ hlm,
              ltStore_succ (fun kv hm => hlf kv (mem_eraseKey hm)),
              hsm, pairwise_created_eraseKey hsf⟩
    · rw [if_neg hdb]
      by_cases hlk : (lookupKey mem uid).isSome
      · rw [if_pos hlk]
        exact ⟨ltStore_succ (fun kv hm => hlm kv (mem_eraseKey hm)),
          ltStore_succ hlf, pairwise_created_eraseKey hsm, hsf⟩
      · rw [if_neg hlk]
        exact ⟨ltStore_succ hlm, ltStore_succ hlf, hsm, hsf⟩
  | touch uid f =>
    rw [applyOp_touch]
    by_cases hdb : db
    · by_cases hf : f
      · rw [if_pos hdb, if_pos hf]
        exact ⟨ltStore_succ hlm, ltStore_succ hlf, hsm, hsf⟩
      · rw [if_pos hdb, if_neg hf]
        rcases hlk : lookupKey fs uid with _ | p
        · exact ⟨ltStore_succ hlm, ltStore_succ hlf, hsm, hsf⟩
        · dsimp only
          exact ⟨ltStore_succ hlm,
            ltStore_succ (ltStore_updateValueAt (fun q => created_set_lastActive q t) hlf),
            hsm, pairwise_created_updateValueAt (fun q => created_set_lastActive q t) hsf⟩
    · rw [if_neg hdb]
      rcases hlk : lookupKey mem uid with _ | p
      · rw [if_neg (by simp)]
        exact ⟨ltStore_succ hlm, ltStore_succ hlf, hsm, hsf⟩
      · rw [if_pos (by simp)]
        dsimp only
        exact ⟨ltStore_succ (ltStore_updateValueAt (fun q => created_set_lastActive q t) hlm),
          ltStore_succ hlf,
          pairwise_created_updateValueAt (fun q => created_set_lastActive q t) hsm, hsf⟩

/-- The creation-order invariant holds in every state reached by a trace
with fresh create ids. -/
theorem sortInv_runOps (b : Bool) (ops : List Op)
    (hf : freshTrace (initState b, 0) ops) : SortInv (runOps b ops) := by
  rw [runOps]
  generalize hst : (initState b, 0) = st at hf
  have h0 : SortInv st := by
    rw [← hst]
    exact ⟨fun _ hm => absurd hm (List.not_mem_nil _),
      fun _ hm => absurd hm (List.not_mem_nil _),
      List.Pairwise.nil, List.Pairwise.nil⟩
  clear hst
  induction ops generalizing st with
  | nil => exact h0
  | cons op rest ih =>
    exact ih (applyOp st op) hf.2 (sortInv_applyOp st op h0 hf.1)

/-! ### No service call lets a backend exception escape -/

theorem exists_ok_of_ne_error {α : Type} (x : Except String α)
    (h : ∀ e, ¬x = .error e) : ∃ v, x = .ok v := by
  cases x with
  | ok v => exact ⟨v, rfl⟩
  | error e => exact absurd rfl (h e)

theorem createUserProfile_ok (s : ServiceState) (uid : String) (now : Nat)
    (r : CreateUserProfileRequest) (f : Bool) :
    ∃ v, createUserProfile s uid now r f = .ok v := by
  apply exists_ok_of_ne_error
  intro e he
  by_cases hdb : s.db
  · by_cases hf : f <;>
      simp [createUserProfile, useMemoryStore, firestoreSet, hdb, hf] at he
  · simp [createUserProfile, useMemoryStore, hdb] at he

theorem getUserProfile_ok (s : ServiceState) (uid : String) (f : Bool) :
    ∃ v, getUserProfile s uid f = .ok v := by
  apply exists_ok_of_ne_error
  intro e he
  by_cases hdb : s.db
  · by_cases hf : f <;>
      simp [getUserProfile, useMemoryStore, firestoreGet, hdb, hf] at he
  · simp [getUserProfile, useMemoryStore, hdb] at he

theorem updateUserProfile_ok (s : ServiceState) (uid : String) (now : Nat)
    (r : UpdateUserProfileRequest) (f1 f2 f3 : Bool) :
    ∃ v, updateUserProfile s uid now r f1 f2 f3 = .ok v := by
  apply exists_ok_of_ne_error
  intro e he
  by_cases hdb : s.db
  · by_cases hf1 : f1
    · simp [updateUserProfile, getUserProfile, useMemoryStore, firestoreGet,
        hdb, hf1] at he
    · rcases hlk : lookupKey s.fs uid with _ | p
      · simp [updateUserProfile, getUserProfile, useMemoryStore, firestoreGet,
          hdb, hf1, hlk] at he
      · by_cases hf2 : f2
        · simp [updateUserProfile, getUserProfile, useMemoryStore,
            firestoreGet, firestoreUpdate, hdb, hf1, hf2, hlk] at he
        · by_cases hf3 : f3 <;>
            simp [updateUserProfile, getUserProfile, useMemoryStore,
              firestoreGet, firestoreUpdate, hdb, hf1, hf2, hf3, hlk] at he
  · rcases hlk : lookupKey s.mem uid with _ | p <;>
      simp [updateUserProfile, getUserProfile, useMemoryStore, hdb, hlk] at he

theorem deleteUserProfile_ok (s : ServiceState) (uid : String)
    (f1 f2 : Bool) : ∃ v, deleteUserProfile s uid f1 f2 = .ok v := by
  apply exists_ok_of_ne_error
  intro e he
  by_cases hdb : s.db
  · by_cases hf1 : f1
    · simp [deleteUserProfile, useMemoryStore, firestoreGet, hdb, hf1] at he
    · rcases hlk : lookupKey s.fs uid with _ | p
      · simp [deleteUserProfile, useMemoryStore, firestoreGet, hdb, hf1,
          hlk] at he
      · by_cases hf2 : f2 <;>
          simp [deleteUserProfile, useMemoryStore, firestoreGet,
            firestoreDelete, hdb, hf1, hf2, hlk] at he
  · by_cases hlk : (lookupKey s.mem uid).isSome <;>
      simp [deleteUserProfile, useMemoryStore, hdb, hlk] at he

theorem listUserProfiles_ok (s : ServiceState) (limit offset : Nat)
    (f : Bool) : ∃ v, listUserProfiles s limit offset f = .ok v := by
  apply exists_ok_of_ne_error
  intro e he
  by_cases hdb : s.db
  · by_cases hf : f <;> simp [listUserProfiles, useMemoryStore, hdb, hf] at he
  · simp [listUserProfiles, useMemoryStore, hdb] at he

theorem updateLastActive_ok (s : ServiceState) (uid : String) (now : Nat)
    (f : Bool) : ∃ v, updateLastActive s uid now f = .ok v := by
  apply exists_ok_of_ne_error
  intro e he
  by_cases hdb : s.db
  · by_cases hf : f
    · simp [updateLastActive, useMemoryStore, firestoreUpdate, hdb, hf] at he
    · rcases hlk : lookupKey s.fs uid with _ | p <;>
        simp [updateLastActive, useMemoryStore, firestoreUpdate, hdb, hf,
          hlk] at he
  · by_cases hlk : (lookupKey s.mem uid).isSome <;>
      simp [updateLastActive, useMemoryStore, hdb, hlk] at he

theorem injectUserContext_ok (s : ServiceState) (sess : SessionState)
    (uid : String) (now : Nat) (f1 f2 : Bool) :
    ∃ v, injectUserContext s sess uid now f1 f2 = .ok v := by
  apply exists_ok_of_ne_error
  intro e he
  rcases getUserProfile_ok s uid f1 with ⟨g, hg⟩
  rcases g with _ | p
  · simp [injectUserContext, hg] at he
  · rcases updateLastActive_ok s uid now f2 with ⟨⟨b2, s2⟩, ht⟩
    simp [injectUserContext, hg, ht] at he

/-! ### Claim C1: the completeness invariant -/

/-- The completeness condition exactly as the specification phrases it. -/
def profileCompleteSpec (p : UserProfile) : Prop :=
  (p.basic_info.name ≠ "" ∧ p.basic_info.email ≠ "" ∧
   p.basic_info.nationality ≠ "" ∧ p.basic_info.home_location ≠ "") ∧
  ((p.travel_interests.preferred_destinations ≠ [] ∨
    p.travel_interests.travel_style ≠ [] ∨
    p.travel_interests.activity_interests ≠ []) ∨
   (p.accessibility_profile.mobility_needs ≠ [] ∨
    p.accessibility_profile.sensory_needs ≠ [] ∨
    p.accessibility_profile.assistance_preferences ≠ []))

theorem isPCFP_iff_spec (p : UserProfile) :
    isProfileCompleteFromProfile p = true ↔ profileCompleteSpec p := by
  simp only [isProfileCompleteFromProfile, profileCompleteSpec, strTruthy,
    listTruthy, List.isEmpty_iff, Bool.and_eq_true, Bool.or_eq_true,
    Bool.not_eq_true', decide_eq_true_eq, List.isEmpty_eq_false,
    ne_eq]
  tauto

/-- C1: after any sequence of create, update, delete, and touch operations,
every stored profile's `profile_complete` flag is true exactly when its
basic info has non-empty name, email, nationality, and home location, and
at least one of the listed travel-interest or accessibility lists is
non-empty. -/
theorem profile_complete_invariant (b : Bool) (ops : List Op) (uid : String)
    (p : UserProfile)
    (h : (uid, p) ∈ (runOps b ops).1.mem ∨ (uid, p) ∈ (runOps b ops).1.fs) :
    p.profile_complete = true ↔ profileCompleteSpec p := by
  have hinv := inv_runOps b ops
  rcases h with h | h
  · rw [hinv.completeMem (uid, p) h]
    exact isPCFP_iff_spec p
  · rw [hinv.completeFs (uid, p) h]
    exact isPCFP_iff_spec p

def c1req : CreateUserProfileRequest :=
  { basic_info :=
      { name := "A", email := "a@b.com", nationality := "US",
        home_location := "X" }
    travel_interests := some { preferred_destinations := ["Paris"] } }

def c1profile : UserProfile := profileFromRequest "u1" 0 c1req

theorem profile_complete_invariant_witness :
    (("u1", c1profile) ∈ (runOps true [.create "u1" c1req false]).1.mem ∨
     ("u1", c1profile) ∈ (runOps true [.create "u1" c1req false]).1.fs) ∧
    (c1profile.profile_complete = true ↔ profileCompleteSpec c1profile) := by
  have hm : ("u1", c1profile) ∈
      (runOps true [.create "u1" c1req false]).1.mem ∨
      ("u1", c1profile) ∈ (runOps true [.create "u1" c1req false]).1.fs :=
    Or.inl (by decide)
  exact ⟨hm, profile_complete_invariant true [.create "u1" c1req false]
    "u1" c1profile hm⟩

/-! ### Claim C9: the summary counts -/

/-- C9 (amended): each listing summary exposes the *lengths of the
concatenated* need and interest lists — duplicates included — rather than
counts of distinct entries. -/
theorem summary_counts_are_concat_lengths (p : UserProfile) :
    (createProfileSummary p).accessibility_needs_count =
      (p.accessibility_profile.mobility_needs ++
       p.accessibility_profile.sensory_needs ++
       p.accessibility_profile.cognitive_needs).length ∧
    (createProfileSummary p).travel_interests_count =
      (p.travel_interests.preferred_destinations ++
       p.travel_interests.activity_interests ++
       p.travel_interests.accommodation_preferences).length :=
  ⟨rfl, rfl⟩

def c9profile : UserProfile :=
  { user_id := "u9"
    basic_info :=
      { name := "N", email := "n@b.com", nationality := "US",
        home_location := "X" }
    travel_interests := {}
    accessibility_profile :=
      { mobility_needs := ["service_animal_friendly"],
        sensory_needs := ["service_animal_friendly"] }
    preferences := {}
    created_at := 0
    updated_at := 0 }

/-- C9 counterexample: with the same need listed under both mobility and
sensory, the summary count is 2, not the count of distinct needs (1). -/
theorem summary_counts_not_distinct :
    ¬((createProfileSummary c9profile).accessibility_needs_count =
      ((c9profile.accessibility_profile.mobility_needs ++
        c9profile.accessibility_profile.sensory_needs ++
        c9profile.accessibility_profile.cognitive_needs).dedup).length) := by
  decide

/-! ### Claim C5: storage exceptions never escape -/

/-- A backend read that throws surfaces as `None` from `get`. -/
theorem getUserProfile_fail_none (s : ServiceState) (uid : String)
    (h : s.db = true) : getUserProfile s uid true = .ok none := by
  simp [getUserProfile, useMemoryStore, firestoreGet, h]

/-- Any backend failure inside `update` surfaces as `None`. -/
theorem updateUserProfile_fail_none (s : ServiceState) (uid : String)
    (now : Nat) (r : UpdateUserProfileRequest) (f1 f2 f3 : Bool)
    (h : s.db = true) (hf : (f1 || f2 || f3) = true) :
    ∃ s2, updateUserProfile s uid now r f1 f2 f3 = .ok (none, s2) := by
  by_cases hf1 : f1
  · exact ⟨s, by simp [updateUserProfile, getUserProfile, useMemoryStore,
      firestoreGet, h, hf1]⟩
  · rcases hlk : lookupKey s.fs uid with _ | p
    · exact ⟨s, by simp [updateUserProfile, getUserProfile, useMemoryStore,
        firestoreGet, h, hf1, hlk]⟩
    · by_cases hf2 : f2
      · exact ⟨s, by simp [updateUserProfile, getUserProfile,
          useMemoryStore, firestoreGet, firestoreUpdate, h, hf1, hf2, hlk]⟩
      · have hf3 : f3 = true := by
          simp [hf1, hf2] at hf
          exact hf
        exact ⟨{ s with fs := updateValueAt s.fs uid fun q =>
            applyUpdateData q (buildUpdateData p r now) },
          by simp [updateUserProfile, getUserProfile, useMemoryStore,
            firestoreGet, firestoreUpdate, h, hf1, hf2, hf3, hlk]⟩

/-- Any backend failure inside `delete` surfaces as `False` and leaves the
state untouched. -/
theorem deleteUserProfile_fail_false (s : ServiceState) (uid : String)
    (f1 f2 : Bool) (h : s.db = true) (hf : (f1 || f2) = true) :
    deleteUserProfile s uid f1 f2 = .ok (false, s) := by
  by_cases hf1 : f1
  · simp [deleteUserProfile, useMemoryStore, firestoreGet, h, hf1]
  · have hf2 : f2 = true := by
      simp [hf1] at hf
      exact hf
    rcases hlk : lookupKey s.fs uid with _ | p <;>
      simp [deleteUserProfile, useMemoryStore, firestoreGet, firestoreDelete,
        h, hf1, hf2, hlk]

/-- A backend query that throws surfaces as an empty page from `list`. -/
theorem listUserProfiles_fail_empty (s : ServiceState) (limit offset : Nat)
    (h : s.db = true) : listUserProfiles s limit offset true = .ok [] := by
  simp [listUserProfiles, useMemoryStore, h]

/-- A backend write that throws surfaces as `False` from `touch`. -/
theorem updateLastActive_fail_false (s : ServiceState) (uid : String)
    (now : Nat) (h : s.db = true) :
    updateLastActive s uid now true = .ok (false, s) := by
  simp [updateLastActive, useMemoryStore, firestoreUpdate, h]

/-- A failed profile read makes `inject` return `False` with both the
service state and the session untouched. -/
theorem injectUserContext_getfail_false (s : ServiceState)
    (sess : SessionState) (uid : String) (now : Nat) (f2 : Bool)
    (h : s.db = true) :
    injectUserContext s sess uid now true f2 = .ok (false, s, sess) := by
  simp [injectUserContext, getUserProfile_fail_none s uid h]

/-- A failed `last_active` write inside `inject` is absorbed by `touch`
returning `False`: `inject` still succeeds, with the stored state
untouched. -/
theorem injectUserContext_touchfail_true (s : ServiceState)
    (sess : SessionState) (uid : String) (now : Nat) (p : UserProfile)
    (h : s.db = true) (hget : getUserProfile s uid false = .ok (some p)) :
    injectUserContext s sess uid now false true =
      .ok (true, s,
        { sess with
            user_profile := some p
            user_id := some uid
            context_injected := some true
            context_timestamp := some now
            personalized_context := some (createPersonalizedContext p) }) := by
  simp [injectUserContext, hget, updateLastActive_fail_false s uid now h]

/-- C5 (amended): no service or context operation ever lets a backend
exception escape: every call returns normally for every failure oracle,
and a backend failure surfaces as the documented negative result — `get`
and `update` return `None`, `delete` and `touch` return `False`, `list`
returns `[]`, and `inject` returns `False` when the profile read fails.
`create`, however, does not return a negative result on a storage
failure: it falls back to the in-memory map and returns the successfully
created profile; and a failed `last_active` write inside `inject` is
absorbed by `touch`'s `False`, so `inject` still returns `True`. -/
theorem no_storage_exception_escapes :
    ((∀ (s : ServiceState) (uid : String) (now : Nat)
        (r : CreateUserProfileRequest) (f : Bool),
      ∃ v, createUserProfile s uid now r f = .ok v) ∧
    (∀ (s : ServiceState) (uid : String) (f : Bool),
      ∃ v, getUserProfile s uid f = .ok v) ∧
    (∀ (s : ServiceState) (uid : String) (now : Nat)
        (r : UpdateUserProfileRequest) (f1 f2 f3 : Bool),
      ∃ v, updateUserProfile s uid now r f1 f2 f3 = .ok v) ∧
    (∀ (s : ServiceState) (uid : String) (f1 f2 : Bool),
      ∃ v, deleteUserProfile s uid f1 f2 = .ok v) ∧
    (∀ (s : ServiceState) (limit offset : Nat) (f : Bool),
      ∃ v, listUserProfiles s limit offset f = .ok v) ∧
    (∀ (s : ServiceState) (uid : String) (now : Nat) (f : Bool),
      ∃ v, updateLastActive s uid now f = .ok v) ∧
    (∀ (s : ServiceState) (sess : SessionState) (uid : String) (now : Nat)
        (f1 f2 : Bool),
      ∃ v, injectUserContext s sess uid now f1 f2 = .ok v)) ∧
    ((∀ (s : ServiceState) (uid : String), s.db = true →
      getUserProfile s uid true = .ok none) ∧
    (∀ (s : ServiceState) (uid : String) (now : Nat)
        (r : UpdateUserProfileRequest) (f1 f2 f3 : Bool), s.db = true →
      (f1 || f2 || f3) = true →
      ∃ s2, updateUserProfile s uid now r f1 f2 f3 = .ok (none, s2)) ∧
    (∀ (s : ServiceState) (uid : String) (f1 f2 : Bool), s.db = true →
      (f1 || f2) = true → deleteUserProfile s uid f1 f2 = .ok (false, s)) ∧
    (∀ (s : ServiceState) (limit offset : Nat), s.db = true →
      listUserProfiles s limit offset true = .ok []) ∧
    (∀ (s : ServiceState) (uid : String) (now : Nat), s.db = true →
      updateLastActive s uid now true = .ok (false, s)) ∧
    (∀ (s : ServiceState) (sess : SessionState) (uid : String) (now : Nat)
        (f2 : Bool), s.db = true →
      injectUserContext s sess uid now true f2 = .ok (false, s, sess)) ∧
    (∀ (s : ServiceState) (sess : SessionState) (uid : String) (now : Nat)
        (p : UserProfile), s.db = true →
      getUserProfile s uid false = .ok (some p) →
      injectUserContext s sess uid now false true =
        .ok (true, s,
          { sess with
              user_profile := some p
              user_id := some uid
              context_injected := some true
              context_timestamp := some now
              personalized_context :=
                some (createPersonalizedContext p) }))) :=
  ⟨⟨createUserProfile_ok, getUserProfile_ok, updateUserProfile_ok,
      deleteUserProfile_ok, listUserProfiles_ok, updateLastActive_ok,
      injectUserContext_ok⟩,
    getUserProfile_fail_none,
    fun s uid now r f1 f2 f3 h hf =>
      updateUserProfile_fail_none s uid now r f1 f2 f3 h hf,
    fun s uid f1 f2 h hf => deleteUserProfile_fail_false s uid f1 f2 h hf,
    listUserProfiles_fail_empty,
    updateLastActive_fail_false,
    fun s sess uid now f2 h =>
      injectUserContext_getfail_false s sess uid now f2 h,
    fun s sess uid now p h hget =>
      injectUserContext_touchfail_true s sess uid now p h hget⟩

def c5state : ServiceState := { db := true, fs := [], mem := [] }

def c5req : CreateUserProfileRequest :=
  { basic_info :=
      { name := "C", email := "c@b.com", nationality := "FR",
        home_location := "Y" } }

def c5profile : UserProfile := profileFromRequest "u9" 3 c5req

/-- C5 counterexample: when the backend write throws during `create`, the
call does not return a negative result (`None`, `False`, or `[]`) — it
returns the successfully created profile, now stored in the in-memory
fallback. -/
theorem create_on_backend_failure_returns_profile :
    createUserProfile c5state "u9" 3 c5req true =
      .ok (c5profile,
        { db := false, fs := [], mem := [("u9", c5profile)] }) ∧
    lookupKey
      ({ db := false, fs := [], mem := [("u9", c5profile)] } :
        ServiceState).mem "u9" = some c5profile :=
  ⟨rfl, rfl⟩

theorem no_storage_exception_escapes_witness :
    getUserProfile c5state "u" true = .ok none ∧
    (∃ s2, updateUserProfile c5state "u" 7 {} true false false =
      .ok (none, s2)) ∧
    deleteUserProfile c5state "u" true false = .ok (false, c5state) ∧
    listUserProfiles c5state 10 0 true = .ok [] ∧
    updateLastActive c5state "u" 7 true = .ok (false, c5state) ∧
    injectUserContext c5state {} "u" 7 true false =
      .ok (false, c5state, {}) :=
  have h := no_storage_exception_escapes.2
  ⟨h.1 c5state "u" rfl,
    h.2.1 c5state "u" 7 {} true false false rfl rfl,
    h.2.2.1 c5state "u" true false rfl rfl,
    h.2.2.2.1 c5state 10 0 rfl,
    h.2.2.2.2.1 c5state "u" 7 rfl,
    h.2.2.2.2.2.1 c5state {} "u" 7 false rfl⟩

/-! ### Claim C4: permanence and triggers of the backend fallback -/

/-- C4 (amended): once the service is in memory mode (`self.db = None`),
every later call stays in memory mode and never touches the backend; and a
backend write failure during `create` switches the service to memory mode
while storing the new profile in the in-memory map.  (A failed backend
*read* does not trigger the fallback — see the counterexample.) -/
theorem fallback_is_permanent_and_triggered_by_create_write :
    (∀ (st : ServiceState × Nat) (op : Op), st.1.db = false →
      (applyOp st op).1.db = false ∧ (applyOp st op).1.fs = st.1.fs) ∧
    (∀ (s : ServiceState) (uid : String) (now : Nat)
        (r : CreateUserProfileRequest), s.db = true →
      createUserProfile s uid now r true =
        .ok (profileFromRequest uid now r,
          { s with
              db := false
              mem := setKey s.mem uid (profileFromRequest uid now r) })) := by
  constructor
  · intro st op h
    obtain ⟨s, t⟩ := st
    obtain ⟨db, fs, mem⟩ := s
    simp only at h
    subst h
    cases op with
    | create uid r f =>
      rw [applyOp_create]
      simp
    | update uid r f1 f2 f3 =>
      rw [applyOp_update]
      simp only [show (({ db := false, fs := fs, mem := mem } :
        ServiceState).db = true) = False by simp, if_false]
      rcases lookupKey mem uid with _ | p <;> simp
    | delete uid f1 f2 =>
      rw [applyOp_delete]
      by_cases hlk : (lookupKey mem uid).isSome <;> simp [hlk]
    | touch uid f =>
      rw [applyOp_touch]
      rcases lookupKey mem uid with _ | p <;> simp
  · intro s uid now r h
    simp [createUserProfile, useMemoryStore, firestoreSet, h]

def c4profile : UserProfile :=
  { user_id := "u1"
    basic_info :=
      { name := "D", email := "d@b.com", nationality := "DE",
        home_location := "Z" }
    travel_interests := {}
    accessibility_profile := {}
    preferences := {}
    created_at := 0
    updated_at := 0 }

def c4state : ServiceState :=
  { db := true, fs := [("u1", c4profile)], mem := [] }

/-- C4 counterexample: a backend read that throws does *not* trigger the
permanent fallback: the failing `get` returns `None`, but the very next
`get` uses the backend again and finds the profile that exists only
there (the in-memory map is empty). -/
theorem failed_read_does_not_disable_backend :
    getUserProfile c4state "u1" true = .ok none ∧
    getUserProfile c4state "u1" false = .ok (some c4profile) ∧
    c4state.mem = [] :=
  ⟨rfl, rfl, rfl⟩

theorem fallback_permanence_witness :
    (applyOp ({ db := false, fs := [("u1", c4profile)], mem := [] }, 5)
        (.touch "u1" false)).1.db = false ∧
    (applyOp ({ db := false, fs := [("u1", c4profile)], mem := [] }, 5)
        (.touch "u1" false)).1.fs = [("u1", c4profile)] ∧
    createUserProfile c4state "u2" 6 c5req true =
      .ok (profileFromRequest "u2" 6 c5req,
        { c4state with
            db := false
            mem := setKey c4state.mem "u2" (profileFromRequest "u2" 6 c5req) }) := by
  have h1 := (fallback_is_permanent_and_triggered_by_create_write.1
    ({ db := false, fs := [("u1", c4profile)], mem := [] }, 5)
    (.touch "u1" false) rfl)
  have h2 := fallback_is_permanent_and_triggered_by_create_write.2
    c4state "u2" 6 c5req rfl
  exact ⟨h1.1, h1.2, h2⟩

/-! ### Claim C8: the pagination window -/

/-- A stable sort leaves an already creation-ordered list unchanged. -/
theorem orderByCreatedAt_sorted_eq {l : List UserProfile}
    (h : l.Pairwise fun a b => a.created_at < b.created_at) :
    orderByCreatedAt l = l := by
  induction l with
  | nil => rfl
  | cons p rest ih =>
    rw [orderByCreatedAt, ih (List.pairwise_cons.mp h).2]
    cases rest with
    | nil => rfl
    | cons q rest2 =>
      have hpq : p.created_at ≤ q.created_at :=
        le_of_lt ((List.pairwise_cons.mp h).1 q (List.mem_cons_self q rest2))
      rw [orderByCreatedAt.insertByCreatedAt, if_pos hpq]

/-- The profiles held by whichever store is active. -/
def storedProfiles (s : ServiceState) : List UserProfile :=
  if s.db then s.fs.map (·.2) else s.mem.map (·.2)

/-- C8: in every reachable state (fresh create ids), `list(limit, offset)`
returns exactly the summaries of the stored profiles at creation-order
positions `offset+1 … min(offset+limit, n)` — the `drop`/`take` window —
and the stored sequence is ordered by creation time ascending. -/
theorem list_pagination (b : Bool) (ops : List Op) (limit offset : Nat)
    (hf : freshTrace (initState b, 0) ops) :
    listUserProfiles (runOps b ops).1 limit offset false =
      .ok ((((storedProfiles (runOps b ops).1).drop offset).take limit).map
        createProfileSummary) ∧
    (storedProfiles (runOps b ops).1).Pairwise
      fun a c => a.created_at < c.created_at := by
  have hs := sortInv_runOps b ops hf
  by_cases hdb : (runOps b ops).1.db
  · have hsort : ((runOps b ops).1.fs.map (·.2)).Pairwise
        fun a c => a.created_at < c.created_at :=
      List.pairwise_map.mpr hs.sortFs
    constructor
    · simp [listUserProfiles, useMemoryStore, hdb, storedProfiles,
        orderByCreatedAt_sorted_eq hsort]
    · rw [storedProfiles, if_pos hdb]
      exact hsort
  · constructor
    · simp [listUserProfiles, useMemoryStore, hdb, storedProfiles]
    · rw [storedProfiles, if_neg hdb]
      exact List.pairwise_map.mpr hs.sortMem

def mkReq (n : String) : CreateUserProfileRequest :=
  { basic_info :=
      { name := n, email := "e@b.com", nationality := "US",
        home_location := "H" } }

def c8ops : List Op :=
  [.create "u1" (mkReq "A") false, .create "u2" (mkReq "B") false,
   .create "u3" (mkReq "C") false, .create "u4" (mkReq "D") false,
   .create "u5" (mkReq "E") false]

theorem list_pagination_witness :
    freshTrace (initState true, 0) c8ops ∧
    listUserProfiles (runOps true c8ops).1 2 2 false =
      .ok ((((storedProfiles (runOps true c8ops).1).drop 2).take 2).map
        createProfileSummary) ∧
    (((storedProfiles (runOps true c8ops).1).drop 2).take 2).map
      (·.user_id) = ["u3", "u4"] := by
  have h := list_pagination true c8ops 2 2 (by decide)
  exact ⟨by decide, h.1, by decide⟩

/-! ### Claim C3: injection failure is non-destructive -/

/-- C3: when the user id does not resolve to a stored profile, `inject`
returns false and leaves the session state (and the service state)
completely unchanged, so a later `get_context` still reports absence. -/
theorem inject_unknown_user_non_destructive (s : ServiceState)
    (sess : SessionState) (uid : String) (now : Nat) (f1 f2 : Bool)
    (hget : getUserProfile s uid f1 = .ok none) :
    injectUserContext s sess uid now f1 f2 = .ok (false, s, sess) ∧
    (getUserContextFromSession sess = none →
      ∀ (ok2 : Bool) (s2 : ServiceState) (sess2 : SessionState),
        injectUserContext s sess uid now f1 f2 = .ok (ok2, s2, sess2) →
        getUserContextFromSession sess2 = none) := by
  have h1 : injectUserContext s sess uid now f1 f2 = .ok (false, s, sess) := by
    simp [injectUserContext, hget]
  refine ⟨h1, fun habs ok2 s2 sess2 h2 => ?_⟩
  rw [h1] at h2
  cases h2
  exact habs

theorem inject_unknown_user_witness :
    injectUserContext (initState true) {} "nobody" 4 false false =
      .ok (false, initState true, {}) ∧
    (getUserContextFromSession {} = none →
      ∀ (ok2 : Bool) (s2 : ServiceState) (sess2 : SessionState),
        injectUserContext (initState true) {} "nobody" 4 false false =
          .ok (ok2, s2, sess2) →
        getUserContextFromSession sess2 = none) :=
  inject_unknown_user_non_destructive (initState true) {} "nobody" 4
    false false rfl

/-! ### Claim C7: what injection does to the stored records -/

/-- A record with its `last_active` field blanked, used to compare stored
records up to that one field. -/
def clearLastActive (p : UserProfile) : UserProfile :=
  { p with last_active := none }

theorem clear_lookup_updateValueAt (m : List (String × UserProfile))
    (uid k : String) (f : UserProfile → UserProfile)
    (hf : ∀ q, clearLastActive (f q) = clearLastActive q) :
    (lookupKey (updateValueAt m uid f) k).map clearLastActive =
      (lookupKey m k).map clearLastActive := by
  by_cases hk : k = uid
  · subst hk
    rw [lookupKey_updateValueAt_self]
    cases lookupKey m k with
    | none => rfl
    | some q => simp [hf]
  · rw [lookupKey_updateValueAt_ne _ _ _ _ hk]

/-- Explicit result of `update_last_active` in both storage modes. -/
theorem updateLastActive_eq (s : ServiceState) (uid : String) (now : Nat)
    (f : Bool) :
    updateLastActive s uid now f =
      if s.db then
        if f then .ok (false, s)
        else
          match lookupKey s.fs uid with
          | none => .ok (false, s)
          | some _ =>
            .ok (true, { s with fs := updateValueAt s.fs uid fun q =>
              { q with last_active := some now } })
      else
        if (lookupKey s.mem uid).isSome then
          .ok (true, { s with mem := updateValueAt s.mem uid fun q =>
            { q with last_active := some now } })
        else .ok (false, s) := by
  by_cases hdb : s.db
  · by_cases hf : f
    · simp [updateLastActive, useMemoryStore, firestoreUpdate, hdb, hf]
    · rcases hlk : lookupKey s.fs uid with _ | p <;>
        simp [updateLastActive, useMemoryStore, firestoreUpdate, hdb, hf,
          hlk, applyUpdateData_lastActive]
  · by_cases hlk : (lookupKey s.mem uid).isSome <;>
      simp [updateLastActive, useMemoryStore, hdb, hlk]

/-- `update_last_active` changes no stored field other than `last_active`,
in either storage mode. -/
theorem updateLastActive_state (s : ServiceState) (uid : String) (now : Nat)
    (f : Bool) (b2 : Bool) (s2 : ServiceState)
    (h : updateLastActive s uid now f = .ok (b2, s2)) :
    s2.db = s.db ∧
    (∀ k, (lookupKey s2.mem k).map clearLastActive =
      (lookupKey s.mem k).map clearLastActive) ∧
    (∀ k, (lookupKey s2.fs k).map clearLastActive =
      (lookupKey s.fs k).map clearLastActive) := by
  rw [updateLastActive_eq] at h
  by_cases hdb : s.db
  · rw [if_pos hdb] at h
    by_cases hf : f
    · rw [if_pos hf] at h
      simp only [Except.ok.injEq, Prod.mk.injEq] at h
      obtain ⟨hb, hs⟩ := h
      subst hs
      exact ⟨rfl, fun k => rfl, fun k => rfl⟩
    · rw [if_neg hf] at h
      rcases hlk : lookupKey s.fs uid with _ | p
      · rw [hlk] at h
        simp only [Except.ok.injEq, Prod.mk.injEq] at h
        obtain ⟨hb, hs⟩ := h
        subst hs
        exact ⟨rfl, fun k => rfl, fun k => rfl⟩
      · rw [hlk] at h
        simp only [Except.ok.injEq, Prod.mk.injEq] at h
        obtain ⟨hb, hs⟩ := h
        subst hs
        exact ⟨rfl, fun k => rfl,
          fun k => clear_lookup_updateValueAt s.fs uid k
            (fun q => { q with last_active := some now }) fun q => rfl⟩
  · rw [if_neg hdb] at h
    by_cases hlk : (lookupKey s.mem uid).isSome
    · rw [if_pos hlk] at h
      simp only [Except.ok.injEq, Prod.mk.injEq] at h
      obtain ⟨hb, hs⟩ := h
      subst hs
      exact ⟨rfl,
        fun k => clear_lookup_updateValueAt s.mem uid k
          (fun q => { q with last_active := some now }) fun q => rfl,
        fun k => rfl⟩
    · rw [if_neg hlk] at h
      simp only [Except.ok.injEq, Prod.mk.injEq] at h
      obtain ⟨hb, hs⟩ := h
      subst hs
      exact ⟨rfl, fun k => rfl, fun k => rfl⟩

/-- C7 (amended): `inject` leaves every stored record unchanged except for
`last_active`, which it refreshes itself through `update_last_active`; no
record is created or removed and the storage mode is untouched. -/
theorem inject_mutates_only_last_active (s : ServiceState)
    (sess : SessionState) (uid : String) (now : Nat) (f1 f2 : Bool)
    (ok2 : Bool) (s2 : ServiceState) (sess2 : SessionState)
    (h : injectUserContext s sess uid now f1 f2 = .ok (ok2, s2, sess2)) :
    s2.db = s.db ∧
    (∀ k, (lookupKey s2.mem k).map clearLastActive =
      (lookupKey s.mem k).map clearLastActive) ∧
    (∀ k, (lookupKey s2.fs k).map clearLastActive =
      (lookupKey s.fs k).map clearLastActive) := by
  rcases getUserProfile_ok s uid f1 with ⟨g, hg⟩
  rcases g with _ | p
  · simp [injectUserContext, hg] at h
    rw [← h.2.1]
    exact ⟨rfl, fun k => rfl, fun k => rfl⟩
  · rcases updateLastActive_ok s uid now f2 with ⟨⟨b2, s2x⟩, ht⟩
    simp [injectUserContext, hg, ht] at h
    rw [← h.2.1]
    exact updateLastActive_state s uid now f2 b2 s2x ht

def c7profile : UserProfile :=
  { user_id := "u1"
    basic_info :=
      { name := "G", email := "g@b.com", nationality := "IT",
        home_location := "Rome" }
    travel_interests := {}
    accessibility_profile := {}
    preferences := {}
    created_at := 0
    updated_at := 0 }

def c7state : ServiceState :=
  { db := false, fs := [], mem := [("u1", c7profile)] }

/-- C7 counterexample: a successful `inject` *does* mutate the stored
record — it refreshes `last_active` through `update_last_active`, so the
stored profile afterwards differs from the one stored before. -/
theorem inject_updates_stored_last_active :
    c7profile.last_active = none ∧
    injectUserContext c7state {} "u1" 5 false false =
      .ok (true,
        { db := false, fs := [],
          mem := [("u1", { c7profile with last_active := some 5 })] },
        { user_profile := some c7profile
          user_id := some "u1"
          context_injected := some true
          context_timestamp := some 5
          personalized_context := some (createPersonalizedContext c7profile)
          learned_preferences := none }) ∧
    ({ c7profile with last_active := some 5 } : UserProfile) ≠ c7profile := by
  refine ⟨rfl, rfl, ?_⟩
  decide

def c7stateAfter : ServiceState :=
  { db := false
    fs := []
    mem := [("u1", { c7profile with last_active := some 5 })] }

theorem inject_mutates_only_last_active_witness :
    c7stateAfter.db = c7state.db ∧
    (∀ k, (lookupKey c7stateAfter.mem k).map clearLastActive =
      (lookupKey c7state.mem k).map clearLastActive) ∧
    (∀ k, (lookupKey c7stateAfter.fs k).map clearLastActive =
      (lookupKey c7state.fs k).map clearLastActive) :=
  inject_mutates_only_last_active c7state {} "u1" 5 false false true
    c7stateAfter _ rfl

/-! ### Claim C10: injection is idempotent on the injected context -/

/-- Personalized context does not depend on `last_active`. -/
theorem createPersonalizedContext_lastActive (p : UserProfile) (t : Nat) :
    createPersonalizedContext { p with last_active := some t } =
      createPersonalizedContext p := rfl

/-- The session record written by a successful injection. -/
def injectedSession (sess : SessionState) (uid : String) (now : Nat)
    (p : UserProfile) : SessionState :=
  { sess with
      user_profile := some p
      user_id := some uid
      context_injected := some true
      context_timestamp := some now
      personalized_context := some (createPersonalizedContext p) }

/-- A successful lookup makes `inject` return true and write the full
session context. -/
theorem injectUserContext_found (s : ServiceState) (sess : SessionState)
    (uid : String) (now : Nat) (p : UserProfile)
    (hget : getUserProfile s uid false = .ok (some p)) (b2 : Bool)
    (s2 : ServiceState)
    (ht : updateLastActive s uid now false = .ok (b2, s2)) :
    injectUserContext s sess uid now false false =
      .ok (true, s2, injectedSession sess uid now p) := by
  simp [injectUserContext, injectedSession, hget, ht]

/-- C10: when the user id resolves and the backend does not fail, two
consecutive `inject` calls both return true, and the session keys
`personalized_context`, `user_id`, and `context_injected` are the same
after the second call as after the first. -/
theorem inject_idempotent (s : ServiceState) (sess : SessionState)
    (uid : String) (now1 now2 : Nat) (p : UserProfile)
    (hget : getUserProfile s uid false = .ok (some p)) :
    ∃ s1 sess1,
      injectUserContext s sess uid now1 false false = .ok (true, s1, sess1) ∧
      ∃ s2 sess2,
        injectUserContext s1 sess1 uid now2 false false =
          .ok (true, s2, sess2) ∧
        sess2.personalized_context = sess1.personalized_context ∧
        sess2.user_id = sess1.user_id ∧
        sess2.context_injected = sess1.context_injected := by
  by_cases hdb : s.db
  · have hlk : lookupKey s.fs uid = some p := by
      simpa [getUserProfile, useMemoryStore, firestoreGet, hdb] using hget
    have ht1 : updateLastActive s uid now1 false =
        .ok (true, { s with fs := updateValueAt s.fs uid fun q =>
          { q with last_active := some now1 } }) := by
      rw [updateLastActive_eq, if_pos hdb, if_neg (by simp), hlk]
    have h1 := injectUserContext_found s sess uid now1 p hget true _ ht1
    have hget2 : getUserProfile
        ({ s with fs := updateValueAt s.fs uid fun q =>
          { q with last_active := some now1 } } : ServiceState) uid false =
        .ok (some { p with last_active := some now1 }) := by
      simp [getUserProfile, useMemoryStore, firestoreGet, hdb,
        lookupKey_updateValueAt_self, hlk]
    have ht2 : updateLastActive
        ({ s with fs := updateValueAt s.fs uid fun q =>
          { q with last_active := some now1 } } : ServiceState)
        uid now2 false =
        .ok (true, { s with fs := (updateValueAt
          (updateValueAt s.fs uid fun q => { q with last_active := some now1 })
          uid fun q => { q with last_active := some now2 }) }) := by
      rw [updateLastActive_eq, if_pos hdb, if_neg (by simp)]
      rw [show lookupKey
        (updateValueAt s.fs uid fun q => { q with last_active := some now1 })
        uid = some { p with last_active := some now1 } by
          rw [lookupKey_updateValueAt_self, hlk]; rfl]
    have h2 := injectUserContext_found _ (injectedSession sess uid now1 p)
      uid now2 { p with last_active := some now1 } hget2 true _ ht2
    exact ⟨_, _, h1, _, _, h2,
      by simp [injectedSession, createPersonalizedContext_lastActive],
      rfl, rfl⟩
  · have hdb0 : s.db = false := by simpa using hdb
    have hlk : lookupKey s.mem uid = some p := by
      simpa [getUserProfile, useMemoryStore, hdb0] using hget
    have ht1 : updateLastActive s uid now1 false =
        .ok (true, { s with mem := updateValueAt s.mem uid fun q =>
          { q with last_active := some now1 } }) := by
      rw [updateLastActive_eq, if_neg (by simp [hdb0]), if_pos (by simp [hlk])]
    have h1 := injectUserContext_found s sess uid now1 p hget true _ ht1
    have hget2 : getUserProfile
        ({ s with mem := updateValueAt s.mem uid fun q =>
          { q with last_active := some now1 } } : ServiceState) uid false =
        .ok (some { p with last_active := some now1 }) := by
      simp [getUserProfile, useMemoryStore, hdb0,
        lookupKey_updateValueAt_self, hlk]
    have ht2 : updateLastActive
        ({ s with mem := updateValueAt s.mem uid fun q =>
          { q with last_active := some now1 } } : ServiceState)
        uid now2 false =
        .ok (true, { s with mem := (updateValueAt
          (updateValueAt s.mem uid fun q => { q with last_active := some now1 })
          uid fun q => { q with last_active := some now2 }) }) := by
      rw [updateLastActive_eq, if_neg (by simp [hdb0])]
      rw [if_pos (by rw [lookupKey_updateValueAt_self, hlk]; rfl)]
    have h2 := injectUserContext_found _ (injectedSession sess uid now1 p)
      uid now2 { p with last_active := some now1 } hget2 true _ ht2
    exact ⟨_, _, h1, _, _, h2,
      by simp [injectedSession, createPersonalizedContext_lastActive],
      rfl, rfl⟩

theorem inject_idempotent_witness :
    getUserProfile c7state "u1" false = .ok (some c7profile) ∧
    ∃ s1 sess1,
      injectUserContext c7state {} "u1" 8 false false =
        .ok (true, s1, sess1) ∧
      ∃ s2 sess2,
        injectUserContext s1 sess1 "u1" 9 false false =
          .ok (true, s2, sess2) ∧
        sess2.personalized_context = sess1.personalized_context ∧
        sess2.user_id = sess1.user_id ∧
        sess2.context_injected = sess1.context_injected :=
  ⟨rfl, inject_idempotent c7state {} "u1" 8 9 c7profile rfl⟩

/-! ### Claim C2: update merges only the fields present in the request -/

theorem buildUpdateData_fields (p : UserProfile)
    (r : UpdateUserProfileRequest) (now : Nat) :
    (buildUpdateData p r now).basic_info = r.basic_info ∧
    (buildUpdateData p r now).travel_interests = r.travel_interests ∧
    (buildUpdateData p r now).accessibility_profile =
      r.accessibility_profile ∧
    (buildUpdateData p r now).preferences = r.preferences ∧
    (buildUpdateData p r now).updated_at = some now ∧
    (buildUpdateData p r now).last_active = none := by
  rw [buildUpdateData]
  split <;> exact ⟨rfl, rfl, rfl, rfl, rfl, rfl⟩

theorem buildUpdateData_pc_none (p : UserProfile)
    (r : UpdateUserProfileRequest) (now : Nat) (hb : r.basic_info = none)
    (ht : r.travel_interests = none) (ha : r.accessibility_profile = none) :
    (buildUpdateData p r now).profile_complete = none := by
  rw [buildUpdateData, if_neg (by simp [hb, ht, ha])]

/-- The result of a non-failing update on an existing profile: the merged
record, written back in place in whichever store is active. -/
theorem updateUserProfile_found (s : ServiceState) (uid : String) (now : Nat)
    (r : UpdateUserProfileRequest) (p : UserProfile)
    (hget : getUserProfile s uid false = .ok (some p)) :
    updateUserProfile s uid now r false false false =
      .ok (some (applyUpdateData p (buildUpdateData p r now)),
        if s.db then
          { s with fs := updateValueAt s.fs uid fun q =>
              applyUpdateData q (buildUpdateData p r now) }
        else
          { s with mem := updateValueAt s.mem uid fun q =>
              applyUpdateData q (buildUpdateData p r now) }) := by
  by_cases hdb : s.db
  · have hlk : lookupKey s.fs uid = some p := by
      simpa [getUserProfile, useMemoryStore, firestoreGet, hdb] using hget
    rw [if_pos hdb]
    simp [updateUserProfile, getUserProfile, useMemoryStore, firestoreGet,
      firestoreUpdate, hdb, hlk, lookupKey_updateValueAt_self]
  · have hlk : lookupKey s.mem uid = some p := by
      simpa [getUserProfile, useMemoryStore, hdb] using hget
    rw [if_neg hdb]
    simp [updateUserProfile, getUserProfile, useMemoryStore, hdb, hlk,
      lookupKey_updateValueAt_self]

/-- Everything the frame/effect contract of `update_user_profile` says
about the returned record. -/
structure UpdateFrameFacts (p p' : UserProfile)
    (r : UpdateUserProfileRequest) (now : Nat) : Prop where
  user_id_eq : p'.user_id = p.user_id
  created_at_eq : p'.created_at = p.created_at
  travel_history_eq : p'.travel_history = p.travel_history
  learned_preferences_eq : p'.learned_preferences = p.learned_preferences
  last_active_eq : p'.last_active = p.last_active
  onboarding_eq : p'.onboarding_completed = p.onboarding_completed
  basic_info_frame : r.basic_info = none → p'.basic_info = p.basic_info
  basic_info_merge : ∀ b, r.basic_info = some b → p'.basic_info = b
  travel_interests_frame :
    r.travel_interests = none → p'.travel_interests = p.travel_interests
  travel_interests_merge :
    ∀ ti, r.travel_interests = some ti → p'.travel_interests = ti
  accessibility_frame : r.accessibility_profile = none →
    p'.accessibility_profile = p.accessibility_profile
  accessibility_merge : ∀ ap, r.accessibility_profile = some ap →
    p'.accessibility_profile = ap
  preferences_frame : r.preferences = none → p'.preferences = p.preferences
  preferences_merge : ∀ pr, r.preferences = some pr → p'.preferences = pr
  updated_at_refreshed : p'.updated_at = now
  pc_frame : r.basic_info = none → r.travel_interests = none →
    r.accessibility_profile = none →
    p'.profile_complete = p.profile_complete
  pc_recomputed : (r.basic_info.isSome ∨ r.travel_interests.isSome ∨
      r.accessibility_profile.isSome) →
    p'.profile_complete = isProfileCompleteFromProfile p'

/-- C2: a non-failing update on an existing profile merges exactly the
sub-objects present in the request; every other persisted field is
unchanged except `updated_at` (always refreshed) and `profile_complete`
(recomputed only when a completeness-relevant sub-object is present); the
merged record is what gets persisted. -/
theorem update_merges_only_present_fields (s : ServiceState) (uid : String)
    (now : Nat) (r : UpdateUserProfileRequest) (p p' : UserProfile)
    (s' : ServiceState)
    (hget : getUserProfile s uid false = .ok (some p))
    (hupd : updateUserProfile s uid now r false false false =
      .ok (some p', s')) :
    UpdateFrameFacts p p' r now ∧
    (s.db = false → lookupKey s'.mem uid = some p') ∧
    (s.db = true → lookupKey s'.fs uid = some p') := by
  have hchar := updateUserProfile_found s uid now r p hget
  rw [hchar] at hupd
  simp only [Except.ok.injEq, Prod.mk.injEq, Option.some.injEq] at hupd
  obtain ⟨hp', hs'⟩ := hupd
  subst hp'
  subst hs'
  obtain ⟨hfb, hft, hfa, hfp, hfu, hfl⟩ := buildUpdateData_fields p r now
  refine ⟨?_, ?_, ?_⟩
  · refine ⟨rfl, rfl, rfl, rfl, ?_, rfl, ?_, ?_, ?_, ?_, ?_, ?_, ?_, ?_,
      ?_, ?_, ?_⟩
    · show (match (buildUpdateData p r now).last_active with
        | some t => some t
        | none => p.last_active) = p.last_active
      rw [hfl]
    · intro hb
      show (buildUpdateData p r now).basic_info.getD p.basic_info =
        p.basic_info
      rw [hfb, hb]
      rfl
    · intro b hb
      show (buildUpdateData p r now).basic_info.getD p.basic_info = b
      rw [hfb, hb]
      rfl
    · intro hb
      show (buildUpdateData p r now).travel_interests.getD
        p.travel_interests = p.travel_interests
      rw [hft, hb]
      rfl
    · intro ti hb
      show (buildUpdateData p r now).travel_interests.getD
        p.travel_interests = ti
      rw [hft, hb]
      rfl
    · intro hb
      show (buildUpdateData p r now).accessibility_profile.getD
        p.accessibility_profile = p.accessibility_profile
      rw [hfa, hb]
      rfl
    · intro ap hb
      show (buildUpdateData p r now).accessibility_profile.getD
        p.accessibility_profile = ap
      rw [hfa, hb]
      rfl
    · intro hb
      show (buildUpdateData p r now).preferences.getD p.preferences =
        p.preferences
      rw [hfp, hb]
      rfl
    · intro pr hb
      show (buildUpdateData p r now).preferences.getD p.preferences = pr
      rw [hfp, hb]
      rfl
    · show (buildUpdateData p r now).updated_at.getD p.updated_at = now
      rw [hfu]
      rfl
    · intro hb ht ha
      show (buildUpdateData p r now).profile_complete.getD
        p.profile_complete = p.profile_complete
      rw [buildUpdateData_pc_none p r now hb ht ha]
      rfl
    · intro htrig
      have hb : (r.basic_info.isSome || r.travel_interests.isSome ||
          r.accessibility_profile.isSome) = true := by
        rcases htrig with h | h | h <;> simp [h]
      rw [buildUpdateData, if_pos hb, pc_applyUpdateData_set,
        isPCFP_applyUpdateData_set_pc]
  · intro hdb
    rw [if_neg (by simp [hdb]), lookupKey_updateValueAt_self]
    have hlk : lookupKey s.mem uid = some p := by
      simpa [getUserProfile, useMemoryStore, hdb] using hget
    rw [hlk]
    rfl
  · intro hdb
    rw [if_pos hdb, lookupKey_updateValueAt_self]
    have hlk : lookupKey s.fs uid = some p := by
      simpa [getUserProfile, useMemoryStore, firestoreGet, hdb] using hget
    rw [hlk]
    rfl

def c2profile : UserProfile :=
  { user_id := "u1"
    basic_info :=
      { name := "E", email := "e@b.com", nationality := "ES",
        home_location := "Madrid" }
    travel_interests := { preferred_destinations := ["Paris"] }
    accessibility_profile := { mobility_needs := ["step_free"] }
    preferences := {}
    created_at := 0
    updated_at := 0
    profile_complete := true }

def c2state : ServiceState :=
  { db := false, fs := [], mem := [("u1", c2profile)] }

def c2req : UpdateUserProfileRequest :=
  { preferences := some { communication_style := .brief } }

def c2result : UserProfile :=
  applyUpdateData c2profile (buildUpdateData c2profile c2req 7)

theorem update_merges_witness :
    c2result.travel_interests = c2profile.travel_interests ∧
    c2result.accessibility_profile = c2profile.accessibility_profile ∧
    c2result.basic_info = c2profile.basic_info ∧
    c2result.updated_at = 7 ∧
    c2result.profile_complete = c2profile.profile_complete ∧
    c2result.preferences =
      { communication_style := CommunicationStyle.brief } := by
  have h := update_merges_only_present_fields c2state "u1" 7 c2req c2profile
    c2result { db := false, fs := [], mem := [("u1", c2result)] } rfl rfl
  exact ⟨h.1.travel_interests_frame rfl, h.1.accessibility_frame rfl,
    h.1.basic_info_frame rfl, h.1.updated_at_refreshed,
    h.1.pc_frame rfl rfl rfl, h.1.preferences_merge _ rfl⟩

/-! ### Claim C6: the wheelchair round trip -/

theorem isPrefixOf_refl (l : List Char) : l.isPrefixOf l = true := by
  induction l with
  | nil => rfl
  | cons c cs ih => simp [List.isPrefixOf, ih]

theorem isPrefixOf_extend {pat l : List Char} (t : List Char)
    (h : pat.isPrefixOf l = true) : pat.isPrefixOf (l ++ t) = true := by
  induction pat generalizing l with
  | nil => cases l <;> cases t <;> rfl
  | cons c cs ih =>
    cases l with
    | nil => simp [List.isPrefixOf] at h
    | cons d ds =>
      simp only [List.isPrefixOf, Bool.and_eq_true] at h
      simp only [List.cons_append, List.isPrefixOf, Bool.and_eq_true]
      exact ⟨h.1, ih h.2⟩

theorem containsSub_append_right {s pat : List Char} (t : List Char)
    (h : containsSub s pat = true) : containsSub (s ++ t) pat = true := by
  induction s with
  | nil =>
    have hpat : pat = [] := by
      simpa [containsSub, List.isEmpty_iff] using h
    subst hpat
    cases t with
    | nil => rfl
    | cons c cs => simp [containsSub, List.isPrefixOf]
  | cons c cs ih =>
    simp only [containsSub, Bool.or_eq_true] at h
    simp only [List.cons_append, containsSub, Bool.or_eq_true]
    rcases h with h | h
    · exact Or.inl (by simpa [List.cons_append] using isPrefixOf_extend t h)
    · exact Or.inr (ih h)

theorem containsSub_self (l : List Char) : containsSub l l = true := by
  cases l with
  | nil => rfl
  | cons c cs => simp [containsSub, isPrefixOf_refl]

theorem strContains_append_right (s t pat : String)
    (h : strContains s pat = true) : strContains (s ++ t) pat = true := by
  rw [strContains, strData_append]
  exact containsSub_append_right t.data h

theorem strContains_append_left (s t pat : String)
    (h : strContains t pat = true) : strContains (s ++ t) pat = true := by
  rw [strContains, strData_append]
  exact containsSub_append_left s.data h

theorem strContains_refl (s : String) : strContains s s = true :=
  containsSub_self s.data

/-- With a single mobility need, the accessibility block of the prompt
contains that need verbatim. -/
theorem accessibilityContext_contains_mobility (p : UserProfile)
    (hmob : p.accessibility_profile.mobility_needs =
      ["wheelchair_accessible"]) :
    strContains (accessibilityContext p) "wheelchair_accessible" = true := by
  rw [accessibilityContext, if_pos (by simp [hmob, listTruthy])]
  apply strContains_append_right
  apply strContains_append_right
  apply strContains_append_right
  apply strContains_append_right
  apply strContains_append_right
  apply strContains_append_right
  apply strContains_append_right
  apply strContains_append_right
  apply strContains_append_right
  apply strContains_append_right
  apply strContains_append_right
  apply strContains_append_left
  rw [hmob]
  rw [show joinOr ["wheelchair_accessible"] "None specified" =
    "wheelchair_accessible" from rfl]
  exact strContains_refl _

/-- The instruction entry the context builder writes for the planning
agent. -/
theorem lookupKey_planning_instruction (p : UserProfile) :
    lookupKey (generatePersonalizedInstructions p) "planning_agent" =
      some (fullContext p ++
        ("\nPrioritize accessible flights, hotels, and transportation options.\nAlways consider the user" ++
          sq ++
          "s mobility aids and assistance needs when making recommendations.\nInclude accessibility features and costs in all suggestions.\n")) := by
  simp [generatePersonalizedInstructions, roleSuffix, lookupKey]

/-- C6: for a stored profile whose mobility needs are exactly
`["wheelchair_accessible"]`, a successful injection yields a context whose
accessibility summary reports mobility needs, and whose planning-agent
instruction string contains the substring `"wheelchair_accessible"`. -/
theorem inject_wheelchair_roundtrip (s : ServiceState) (sess : SessionState)
    (uid : String) (now : Nat) (p : UserProfile)
    (hget : getUserProfile s uid false = .ok (some p))
    (hmob : p.accessibility_profile.mobility_needs =
      ["wheelchair_accessible"]) :
    ∃ s1 sess1,
      injectUserContext s sess uid now false false = .ok (true, s1, sess1) ∧
      ∃ ctx, getUserContextFromSession sess1 = some ctx ∧
        ∃ pc, ctx.personalized_context = some pc ∧
          pc.accessibility_summary.has_mobility_needs = true ∧
          ∃ instr,
            lookupKey pc.personalized_instructions "planning_agent" =
              some instr ∧
            strContains instr "wheelchair_accessible" = true := by
  rcases updateLastActive_ok s uid now false with ⟨⟨b2, s2⟩, ht⟩
  have h1 := injectUserContext_found s sess uid now p hget b2 s2 ht
  refine ⟨s2, injectedSession sess uid now p, h1, ?_⟩
  refine ⟨_, rfl, ?_⟩
  refine ⟨createPersonalizedContext p, rfl, ?_, ?_⟩
  · simp [createPersonalizedContext, createAccessibilitySummary, hmob,
      listTruthy]
  · refine ⟨_, lookupKey_planning_instruction p, ?_⟩
    apply strContains_append_right
    rw [fullContext]
    apply strContains_append_right
    apply strContains_append_left
    exact accessibilityContext_contains_mobility p hmob

def c6profile : UserProfile :=
  { user_id := "u1"
    basic_info :=
      { name := "W", email := "w@b.com", nationality := "US",
        home_location := "X" }
    travel_interests := {}
    accessibility_profile := { mobility_needs := ["wheelchair_accessible"] }
    preferences := {}
    created_at := 0
    updated_at := 0 }

def c6state : ServiceState :=
  { db := false, fs := [], mem := [("u1", c6profile)] }

theorem inject_wheelchair_witness :
    getUserProfile c6state "u1" false = .ok (some c6profile) ∧
    c6profile.accessibility_profile.mobility_needs =
      ["wheelchair_accessible"] ∧
    (∃ s1 sess1,
      injectUserContext c6state {} "u1" 5 false false =
        .ok (true, s1, sess1) ∧
      ∃ ctx, getUserContextFromSession sess1 = some ctx ∧
        ∃ pc, ctx.personalized_context = some pc ∧
          pc.accessibility_summary.has_mobility_needs = true ∧
          ∃ instr,
            lookupKey pc.personalized_instructions "planning_agent" =
              some instr ∧
            strContains instr "wheelchair_accessible" = true) :=
  ⟨rfl, rfl, inject_wheelchair_roundtrip c6state {} "u1" 5 c6profile rfl rfl⟩

end InclusiveTravel
